import Mathlib

/-!
# bean-me-up: verification of the ClickUp reconciliation engine

Shallow embedding of the sync engine of the `bean-me-up` repository
(`internal/clickup/sync.go`, `internal/clickup/external_sync.go`,
`internal/config/config.go`, `internal/beans/types.go`) together with a model
of the Go `time` package restricted to a fixed local-timezone offset, and
proofs of the testable properties stated in the specification.

Conventions:
* machine integers (`int64` millisecond timestamps, day counts) are `Int`;
* Go `*T` pointers that encode optionality are `Option T`;
* Go errors are `Except String` / `Option`;
* the local timezone is a fixed offset `tz` (milliseconds east of UTC),
  threaded explicitly where the Go code uses `time.Local`;
* remote I/O is an oracle environment `Env`; every remote call and every
  sync-state-store mutation performed by the engine is recorded in an
  event trace, in program order.
-/

namespace BeanMeUp

/-! ## Go helpers: `strings.Contains` and `fmt.Sscanf %d` -/

/-- Does `sub` occur as a contiguous sublist of `l`? -/
def listContainsSub (sub : List Char) : List Char → Bool
  | [] => sub.isEmpty
  | c :: cs => sub.isPrefixOf (c :: cs) || listContainsSub sub cs

/-- Model of Go `strings.Contains s sub`. -/
def goContains (s sub : String) : Bool :=
  listContainsSub sub.data s.data

/-- Is `c` an ASCII decimal digit? -/
def isDigitChar (c : Char) : Bool :=
  '0' ≤ c && c ≤ '9'

/-- Numeric value of an ASCII digit character. -/
def digitVal (c : Char) : Nat :=
  c.toNat - 48

/-- Parse a non-empty run of leading digits as a `Nat`; `acc` is the value of
the digits already consumed. -/
def parseDigits : List Char → Nat → Nat
  | [], acc => acc
  | c :: cs, acc => if isDigitChar c then parseDigits cs (acc * 10 + digitVal c) else acc

/-- Does the list start with at least one digit? -/
def startsWithDigit : List Char → Bool
  | [] => false
  | c :: _ => isDigitChar c

/-- Model of Go `fmt.Sscanf(s, "%d", &n)` for an `int64` target: skips an
optional sign, requires at least one leading digit, ignores any trailing
input (as `Sscanf` does), and fails otherwise. -/
def parseGoInt (s : String) : Option Int :=
  match s.data with
  | '-' :: rest => if startsWithDigit rest then some (-(parseDigits rest 0 : Int)) else none
  | '+' :: rest => if startsWithDigit rest then some ((parseDigits rest 0 : Int)) else none
  | l => if startsWithDigit l then some ((parseDigits l 0 : Int)) else none

/-! ## Calendar model (proleptic Gregorian, fixed-offset local zone)

The Go code manipulates dates through `time.Time` values in `time.Local`.
We model an instant as epoch milliseconds (`Int`) and the local zone as a
fixed offset `tz` in milliseconds east of UTC.  Civil dates are computed by
a 400-year-era decomposition: `daysFromCivil`/`civilFromDays` convert between
a day number (days since 0000-03-01-era origin, here days since 0000-01-01)
and a `(year, month, day)` triple.
-/

/-- Milliseconds per day. -/
def dayMs : Int := 86400000

/-- Gregorian leap-year rule, year of era (`0 ≤ y < 400`). -/
def isLeapN (y : Nat) : Bool :=
  (y % 4 == 0 && y % 100 != 0) || y % 400 == 0

/-- Gregorian leap-year rule on `Int` years (as Go `time` computes it). -/
def isLeap (y : Int) : Bool :=
  (y % 4 == 0 && y % 100 != 0) || y % 400 == 0

/-- Days in a given year of era. -/
def daysInYearN (y : Nat) : Nat :=
  if isLeapN y then 366 else 365

/-- Days in month `m` (1-12) of a year with leapness `leap`; total function,
returning 31 outside 1-12 so that segment search terminates. -/
def daysInMonth (leap : Bool) (m : Nat) : Nat :=
  match m with
  | 2 => if leap then 29 else 28
  | 4 => 30
  | 6 => 30
  | 9 => 30
  | 11 => 30
  | _ => 31

/-- Sum of `size` over `k` consecutive segments starting at index `i`. -/
def sumSeg (size : Nat → Nat) (i : Nat) : Nat → Nat
  | 0 => 0
  | k + 1 => size i + sumSeg size (i + 1) k

/-- Fueled segment search: starting at segment `i`, repeatedly subtract
segment sizes from `n` until `n` falls inside the current segment; returns
the segment index and the remainder.  Fuel `n + 1` always suffices when all
sizes are positive. -/
def findSegF (size : Nat → Nat) : Nat → Nat → Nat → Nat × Nat
  | 0, i, n => (i, n)
  | fuel + 1, i, n =>
    if n < size i then (i, n) else findSegF size fuel (i + 1) (n - size i)

/-- Segment search with enough fuel. -/
def findSeg (size : Nat → Nat) (i n : Nat) : Nat × Nat :=
  findSegF size (n + 1) i n

/-- Days before month `m` (1-based) inside one year. -/
def sumMonths (leap : Bool) (m : Nat) : Nat :=
  sumSeg (daysInMonth leap) 1 (m - 1)

/-- Days before year-of-era `y` inside one 400-year era. -/
def sumYearsN (y : Nat) : Nat :=
  sumSeg daysInYearN 0 y

/-- Year-of-era and day-of-year of a day-of-era. -/
def yearDayOfEra (doe : Nat) : Nat × Nat :=
  findSeg daysInYearN 0 doe

/-- Month and zero-based day-of-month of a day-of-year. -/
def monthDayOfYear (leap : Bool) (doy : Nat) : Nat × Nat :=
  findSeg (daysInMonth leap) 1 doy

/-- Day number (days since 0000-01-01) of the civil date `(y, m, d)`. -/
def daysFromCivil (y : Int) (m d : Nat) : Int :=
  y / 400 * 146097 +
    (sumYearsN (y - y / 400 * 400).toNat
      + sumMonths (isLeapN (y - y / 400 * 400).toNat) m + (d - 1) : Nat)

/-- Civil date `(y, m, d)` of a day number (days since 0000-01-01). -/
def civilFromDays (z : Int) : Int × Nat × Nat :=
  (z / 146097 * 400 + ((yearDayOfEra (z - z / 146097 * 146097).toNat).1 : Int),
   (monthDayOfYear (isLeapN (yearDayOfEra (z - z / 146097 * 146097).toNat).1)
      (yearDayOfEra (z - z / 146097 * 146097).toNat).2).1,
   (monthDayOfYear (isLeapN (yearDayOfEra (z - z / 146097 * 146097).toNat).1)
      (yearDayOfEra (z - z / 146097 * 146097).toNat).2).2 + 1)

/-- Day number of the Unix epoch 1970-01-01. -/
def epochDays : Int := daysFromCivil 1970 1 1

/-- Validity of a civil date, as Go `time.ParseInLocation` checks it. -/
def validDate (y : Int) (m d : Nat) : Bool :=
  1 ≤ m && m ≤ 12 && 1 ≤ d && d ≤ daysInMonth (isLeap y) m

/-- Epoch milliseconds of local midnight of the civil date `(y, m, d)` in the
fixed-offset zone `tz`. -/
def millisOfLocalCivil (tz : Int) (y : Int) (m d : Nat) : Int :=
  (daysFromCivil y m d - epochDays) * dayMs - tz

/-- Local civil date of the instant `t` in the fixed-offset zone `tz`. -/
def localCivilOfMillis (tz t : Int) : Int × Nat × Nat :=
  civilFromDays ((t + tz) / dayMs + epochDays)

/-- Embeds `toLocalDateMillis` (src/internal/clickup/sync.go): take the local
civil date of `t` and return epoch milliseconds of that date's local
midnight (`time.Date(y, m, d, 0, 0, 0, 0, time.Local).UnixMilli()`). -/
def toLocalDateMillis (tz t : Int) : Int :=
  millisOfLocalCivil tz (localCivilOfMillis tz t).1 (localCivilOfMillis tz t).2.1
    (localCivilOfMillis tz t).2.2

/-! ### Segment-search lemmas -/

theorem sumSeg_add (size : Nat → Nat) (i a b : Nat) :
    sumSeg size i (a + b) = sumSeg size i a + sumSeg size (i + a) b := by
  induction a generalizing i with
  | zero => simp [sumSeg]
  | succ a ih =>
    have h1 : a + 1 + b = (a + b) + 1 := by omega
    rw [h1]
    show size i + sumSeg size (i + 1) (a + b) = sumSeg size i (a + 1) + sumSeg size (i + (a + 1)) b
    rw [ih (i + 1)]
    show size i + (sumSeg size (i + 1) a + sumSeg size (i + 1 + a) b)
        = size i + sumSeg size (i + 1) a + sumSeg size (i + (a + 1)) b
    have h2 : i + 1 + a = i + (a + 1) := by omega
    rw [h2, Nat.add_assoc]

theorem findSegF_add (size : Nat → Nat) (hpos : ∀ j, 0 < size j) :
    ∀ (k fuel i r : Nat), r < size (i + k) → sumSeg size i k + r < fuel →
      findSegF size fuel i (sumSeg size i k + r) = (i + k, r) := by
  intro k
  induction k with
  | zero =>
    intro fuel i r hr hf
    match fuel with
    | f + 1 =>
      have hr' : r < size i := by simpa using hr
      simp [sumSeg, findSegF, hr']
  | succ k ih =>
    intro fuel i r hr hf
    match fuel with
    | f + 1 =>
      have hsz : sumSeg size i (k + 1) = size i + sumSeg size (i + 1) k := rfl
      have hni : ¬ (sumSeg size i (k + 1) + r < size i) := by
        rw [hsz]; omega
      simp only [findSegF]
      rw [if_neg hni]
      have heq : sumSeg size i (k + 1) + r - size i = sumSeg size (i + 1) k + r := by
        rw [hsz]; omega
      rw [heq]
      have hr' : r < size (i + 1 + k) := by
        have h12 : i + 1 + k = i + (k + 1) := by omega
        rwa [h12]
      have hf' : sumSeg size (i + 1) k + r < f := by
        have := hpos i
        rw [hsz] at hf
        omega
      rw [ih f (i + 1) r hr' hf']
      have h12 : i + 1 + k = i + (k + 1) := by omega
      rw [h12]

theorem findSegF_spec (size : Nat → Nat) (hpos : ∀ j, 0 < size j) :
    ∀ (fuel i n : Nat), n < fuel →
      i ≤ (findSegF size fuel i n).1 ∧
      sumSeg size i ((findSegF size fuel i n).1 - i) + (findSegF size fuel i n).2 = n ∧
      (findSegF size fuel i n).2 < size (findSegF size fuel i n).1 := by
  intro fuel
  induction fuel with
  | zero => intro i n h; exact absurd h (Nat.not_lt_zero n)
  | succ f ih =>
    intro i n h
    simp only [findSegF]
    by_cases hc : n < size i
    · rw [if_pos hc]
      exact ⟨Nat.le_refl i, by simp [sumSeg], hc⟩
    · rw [if_neg hc]
      have hlt : n - size i < f := by have := hpos i; omega
      obtain ⟨h1, h2, h3⟩ := ih (i + 1) (n - size i) hlt
      refine ⟨by omega, ?_, h3⟩
      have hp : (findSegF size f (i + 1) (n - size i)).1 - i
          = ((findSegF size f (i + 1) (n - size i)).1 - (i + 1)) + 1 := by omega
      rw [hp]
      show size i + sumSeg size (i + 1) ((findSegF size f (i + 1) (n - size i)).1 - (i + 1))
            + (findSegF size f (i + 1) (n - size i)).2 = n
      omega

theorem findSeg_add (size : Nat → Nat) (hpos : ∀ j, 0 < size j) (k i r : Nat)
    (hr : r < size (i + k)) :
    findSeg size i (sumSeg size i k + r) = (i + k, r) :=
  findSegF_add size hpos k _ i r hr (Nat.lt_succ_self _)

theorem findSeg_spec (size : Nat → Nat) (hpos : ∀ j, 0 < size j) (i n : Nat) :
    i ≤ (findSeg size i n).1 ∧
    sumSeg size i ((findSeg size i n).1 - i) + (findSeg size i n).2 = n ∧
    (findSeg size i n).2 < size (findSeg size i n).1 :=
  findSegF_spec size hpos _ i n (Nat.lt_succ_self n)

theorem findSeg_lt (size : Nat → Nat) (hpos : ∀ j, 0 < size j) (i K n : Nat)
    (hn : n < sumSeg size i K) : (findSeg size i n).1 < i + K := by
  obtain ⟨h1, h2, _⟩ := findSeg_spec size hpos i n
  by_contra hge
  have hKle : i + K ≤ (findSeg size i n).1 := by omega
  have hdecomp : (findSeg size i n).1 - i = K + ((findSeg size i n).1 - i - K) := by omega
  rw [hdecomp, sumSeg_add] at h2
  omega

/-! ### Calendar facts -/

theorem sumSeg_succ (size : Nat → Nat) (i k : Nat) :
    sumSeg size i (k + 1) = sumSeg size i k + size (i + k) := by
  rw [sumSeg_add]
  show _ + (size (i + k) + sumSeg size (i + k + 1) 0) = _
  simp [sumSeg]

theorem sumSeg_le (size : Nat → Nat) (i a b : Nat) (h : a ≤ b) :
    sumSeg size i a ≤ sumSeg size i b := by
  have hb : b = a + (b - a) := by omega
  rw [hb, sumSeg_add]
  omega

theorem daysInMonth_pos (leap : Bool) (m : Nat) : 0 < daysInMonth leap m := by
  unfold daysInMonth
  repeat' split
  all_goals omega

theorem daysInYearN_pos (y : Nat) : 0 < daysInYearN y := by
  unfold daysInYearN; split <;> omega

set_option maxRecDepth 4000 in
theorem sumSeg_years_400 : sumSeg daysInYearN 0 400 = 146097 := by decide

theorem daysInYearN_eq_sumMonths (y : Nat) :
    daysInYearN y = sumSeg (daysInMonth (isLeapN y)) 1 12 := by
  unfold daysInYearN
  cases h : isLeapN y <;> simp [h] <;> decide

theorem isLeap_era (era : Int) (yoe : Nat) :
    isLeap (era * 400 + (yoe : Int)) = isLeapN yoe := by
  rw [Bool.eq_iff_iff]
  simp only [isLeap, isLeapN, Bool.or_eq_true, Bool.and_eq_true, beq_iff_eq, bne_iff_ne,
    ne_eq]
  omega

/-- `daysFromCivil` on an era decomposition `y = era * 400 + yoe`. -/
theorem daysFromCivil_eq (era : Int) (yoe : Nat) (hy : yoe < 400) (m d : Nat) :
    daysFromCivil (era * 400 + (yoe : Int)) m d
      = era * 146097 + (sumYearsN yoe + sumMonths (isLeapN yoe) m + (d - 1) : Nat) := by
  unfold daysFromCivil
  have he : (era * 400 + (yoe : Int)) / 400 = era := by omega
  rw [he]
  have hs : era * 400 + (yoe : Int) - era * 400 = (yoe : Int) := by ring
  rw [hs, Int.toNat_natCast]

/-- `civilFromDays` on an era decomposition `z = era * 146097 + doe`. -/
theorem civilFromDays_eq (era : Int) (doe : Nat) (hd : doe < 146097) :
    civilFromDays (era * 146097 + (doe : Int))
      = (era * 400 + ((yearDayOfEra doe).1 : Int),
         (monthDayOfYear (isLeapN (yearDayOfEra doe).1) (yearDayOfEra doe).2).1,
         (monthDayOfYear (isLeapN (yearDayOfEra doe).1) (yearDayOfEra doe).2).2 + 1) := by
  unfold civilFromDays
  have he : (era * 146097 + (doe : Int)) / 146097 = era := by omega
  rw [he]
  have hs : era * 146097 + (doe : Int) - era * 146097 = (doe : Int) := by ring
  rw [hs, Int.toNat_natCast]

/-- Day number → civil date → day number is the identity, and the produced
civil date is always valid. -/
theorem daysFromCivil_civilFromDays (z : Int) :
    daysFromCivil (civilFromDays z).1 (civilFromDays z).2.1 (civilFromDays z).2.2 = z ∧
    validDate (civilFromDays z).1 (civilFromDays z).2.1 (civilFromDays z).2.2 = true := by
  obtain ⟨era, doe, hdlt, hz⟩ :
      ∃ (era : Int) (doe : Nat), doe < 146097 ∧ z = era * 146097 + (doe : Int) := by
    refine ⟨z / 146097, (z % 146097).toNat, ?_, ?_⟩
    · have h1 : z % 146097 < 146097 := Int.emod_lt_of_pos z (by omega)
      omega
    · have h0 : 0 ≤ z % 146097 := Int.emod_nonneg z (by omega)
      have := Int.ediv_add_emod z 146097
      omega
  subst hz
  rw [civilFromDays_eq era doe hdlt]
  obtain ⟨hy1, hy2, hy3⟩ := findSeg_spec daysInYearN daysInYearN_pos 0 doe
  rw [Nat.sub_zero] at hy2
  have hylt : (findSeg daysInYearN 0 doe).1 < 400 := by
    have := findSeg_lt daysInYearN daysInYearN_pos 0 400 doe
      (by rw [sumSeg_years_400]; exact hdlt)
    omega
  obtain ⟨hm1, hm2, hm3⟩ := findSeg_spec (daysInMonth (isLeapN (findSeg daysInYearN 0 doe).1))
    (daysInMonth_pos _) 1 (findSeg daysInYearN 0 doe).2
  have hmlt12 :
      (findSeg (daysInMonth (isLeapN (findSeg daysInYearN 0 doe).1)) 1
        (findSeg daysInYearN 0 doe).2).1 < 1 + 12 := by
    refine findSeg_lt _ (daysInMonth_pos _) 1 12 _ ?_
    rw [← daysInYearN_eq_sumMonths]
    exact hy3
  unfold yearDayOfEra monthDayOfYear
  constructor
  · rw [daysFromCivil_eq era _ hylt]
    have hdd :
        (findSeg (daysInMonth (isLeapN (findSeg daysInYearN 0 doe).1)) 1
          (findSeg daysInYearN 0 doe).2).2 + 1 - 1
        = (findSeg (daysInMonth (isLeapN (findSeg daysInYearN 0 doe).1)) 1
            (findSeg daysInYearN 0 doe).2).2 := by omega
    rw [hdd]
    have hsy : sumYearsN (findSeg daysInYearN 0 doe).1
        = sumSeg daysInYearN 0 (findSeg daysInYearN 0 doe).1 := rfl
    have hsm :
        sumMonths (isLeapN (findSeg daysInYearN 0 doe).1)
          (findSeg (daysInMonth (isLeapN (findSeg daysInYearN 0 doe).1)) 1
            (findSeg daysInYearN 0 doe).2).1
        = sumSeg (daysInMonth (isLeapN (findSeg daysInYearN 0 doe).1)) 1
            ((findSeg (daysInMonth (isLeapN (findSeg daysInYearN 0 doe).1)) 1
              (findSeg daysInYearN 0 doe).2).1 - 1) := rfl
    rw [hsy, hsm]
    omega
  · unfold validDate
    rw [isLeap_era]
    simp only [Bool.and_eq_true, decide_eq_true_eq]
    exact ⟨⟨⟨by omega, by omega⟩, by omega⟩, by omega⟩

/-- Civil date → day number → civil date is the identity on valid dates. -/
theorem civilFromDays_daysFromCivil (y : Int) (m d : Nat) (hv : validDate y m d = true) :
    civilFromDays (daysFromCivil y m d) = (y, m, d) := by
  unfold validDate at hv
  simp only [Bool.and_eq_true, decide_eq_true_eq] at hv
  obtain ⟨⟨⟨hm1, hm2⟩, hd1⟩, hd2⟩ := hv
  obtain ⟨era, yoe, hylt, hy⟩ :
      ∃ (era : Int) (yoe : Nat), yoe < 400 ∧ y = era * 400 + (yoe : Int) := by
    refine ⟨y / 400, (y % 400).toNat, ?_, ?_⟩
    · have h1 : y % 400 < 400 := Int.emod_lt_of_pos y (by omega)
      omega
    · have h0 : 0 ≤ y % 400 := Int.emod_nonneg y (by omega)
      have := Int.ediv_add_emod y 400
      omega
  subst hy
  rw [isLeap_era] at hd2
  rw [daysFromCivil_eq era yoe hylt]
  -- intra-year offset and its bound
  have hone : 1 + (m - 1) = m := by omega
  have hmth := sumSeg_succ (daysInMonth (isLeapN yoe)) 1 (m - 1)
  rw [hone] at hmth
  have hm' : (m - 1) + 1 = m := by omega
  rw [hm'] at hmth
  have hmle : sumSeg (daysInMonth (isLeapN yoe)) 1 m
      ≤ sumSeg (daysInMonth (isLeapN yoe)) 1 12 :=
    sumSeg_le _ 1 m 12 hm2
  have hmono : sumSeg (daysInMonth (isLeapN yoe)) 1 (m - 1) + (d - 1) < daysInYearN yoe := by
    rw [daysInYearN_eq_sumMonths]
    omega
  have hyth := sumSeg_succ daysInYearN 0 yoe
  rw [Nat.zero_add] at hyth
  have hyle : sumSeg daysInYearN 0 (yoe + 1) ≤ sumSeg daysInYearN 0 400 :=
    sumSeg_le _ 0 (yoe + 1) 400 (by omega)
  have hN : sumYearsN yoe + sumMonths (isLeapN yoe) m + (d - 1) < 146097 := by
    have hsy : sumYearsN yoe = sumSeg daysInYearN 0 yoe := rfl
    have hsm : sumMonths (isLeapN yoe) m = sumSeg (daysInMonth (isLeapN yoe)) 1 (m - 1) := rfl
    rw [sumSeg_years_400] at hyle
    omega
  rw [civilFromDays_eq era _ hN]
  -- identify the two segment searches
  have hfy : yearDayOfEra (sumYearsN yoe + sumMonths (isLeapN yoe) m + (d - 1))
      = (yoe, sumSeg (daysInMonth (isLeapN yoe)) 1 (m - 1) + (d - 1)) := by
    unfold yearDayOfEra
    have hsm : sumMonths (isLeapN yoe) m = sumSeg (daysInMonth (isLeapN yoe)) 1 (m - 1) := rfl
    have harr : sumYearsN yoe + sumMonths (isLeapN yoe) m + (d - 1)
        = sumSeg daysInYearN 0 yoe
          + (sumSeg (daysInMonth (isLeapN yoe)) 1 (m - 1) + (d - 1)) := by
      rw [hsm]
      show sumYearsN yoe + _ + _ = sumYearsN yoe + _
      omega
    rw [harr]
    have h0 := findSeg_add daysInYearN daysInYearN_pos yoe 0
      (sumSeg (daysInMonth (isLeapN yoe)) 1 (m - 1) + (d - 1)) (by simpa using hmono)
    simpa using h0
  rw [hfy]
  have hfm : monthDayOfYear (isLeapN yoe)
        (sumSeg (daysInMonth (isLeapN yoe)) 1 (m - 1) + (d - 1))
      = (m, d - 1) := by
    unfold monthDayOfYear
    have hdm : d - 1 < daysInMonth (isLeapN yoe) (1 + (m - 1)) := by
      rw [hone]; omega
    have := findSeg_add (daysInMonth (isLeapN yoe)) (daysInMonth_pos _) (m - 1) 1 (d - 1) hdm
    rwa [hone] at this
  rw [hfm]
  show (era * 400 + (yoe : Int), m, (d - 1) + 1) = (era * 400 + (yoe : Int), m, d)
  have hdp : (d - 1) + 1 = d := by omega
  rw [hdp]

/-- `toLocalDateMillis` floors the local time to the start of its local day. -/
theorem toLocalDateMillis_eq (tz t : Int) :
    toLocalDateMillis tz t = (t + tz) / dayMs * dayMs - tz := by
  unfold toLocalDateMillis localCivilOfMillis millisOfLocalCivil
  obtain ⟨hdays, -⟩ := daysFromCivil_civilFromDays ((t + tz) / dayMs + epochDays)
  rw [hdays]
  ring

/-- `toLocalDateMillis` is the identity on local midnights. -/
theorem toLocalDateMillis_fixed (tz k : Int) :
    toLocalDateMillis tz (k * dayMs - tz) = k * dayMs - tz := by
  rw [toLocalDateMillis_eq]
  have h1 : k * dayMs - tz + tz = k * dayMs := by ring
  rw [h1, Int.mul_ediv_cancel k (by unfold dayMs; omega)]

/-! ### Date strings ("YYYY-MM-DD") -/

/-- Two-digit zero-padded decimal rendering. -/
def pad2 (n : Nat) : List Char :=
  [Nat.digitChar (n / 10 % 10), Nat.digitChar (n % 10)]

/-- Four-digit zero-padded decimal rendering. -/
def pad4 (n : Nat) : List Char :=
  [Nat.digitChar (n / 1000 % 10), Nat.digitChar (n / 100 % 10),
   Nat.digitChar (n / 10 % 10), Nat.digitChar (n % 10)]

/-- Rendering of a civil date in Go layout `"2006-01-02"`. -/
def renderDate (y : Int) (m d : Nat) : String :=
  ⟨pad4 y.toNat ++ '-' :: pad2 m ++ '-' :: pad2 d⟩

/-- Model of Go `time.ParseInLocation("2006-01-02", s, loc)` at the level of
the civil date: requires the exact 10-character digit/dash layout and a valid
calendar date, as the Go parser does. -/
def parseDateString (s : String) : Option (Int × Nat × Nat) :=
  match s.data with
  | [y1, y2, y3, y4, c1, m1, m2, c2, d1, d2] =>
    if c1 = '-' ∧ c2 = '-' ∧ isDigitChar y1 ∧ isDigitChar y2 ∧ isDigitChar y3 ∧
        isDigitChar y4 ∧ isDigitChar m1 ∧ isDigitChar m2 ∧ isDigitChar d1 ∧
        isDigitChar d2 then
      if validDate (((1000 * digitVal y1 + 100 * digitVal y2 + 10 * digitVal y3
            + digitVal y4 : Nat) : Int))
          (10 * digitVal m1 + digitVal m2) (10 * digitVal d1 + digitVal d2) then
        some (((1000 * digitVal y1 + 100 * digitVal y2 + 10 * digitVal y3
            + digitVal y4 : Nat) : Int),
          10 * digitVal m1 + digitVal m2, 10 * digitVal d1 + digitVal d2)
      else none
    else none
  | _ => none

/-- Embeds `parseBeanDueDate` (src/internal/clickup/sync.go):
`time.ParseInLocation("2006-01-02", s, time.Local)`, returning the instant of
local midnight of the parsed date, or `none` on a parse error. -/
def parseBeanDueDate (tz : Int) (s : String) : Option Int :=
  (parseDateString s).map fun c => millisOfLocalCivil tz c.1 c.2.1 c.2.2

/-- Rendering an instant back to its local date string, modelling Go
`t.Local().Format("2006-01-02")` in the fixed-offset zone. -/
def formatLocalDate (tz t : Int) : String :=
  renderDate (localCivilOfMillis tz t).1 (localCivilOfMillis tz t).2.1
    (localCivilOfMillis tz t).2.2

theorem digitChar_of_digit (n : Nat) (h1 : 48 ≤ n) (h2 : n ≤ 57) :
    Nat.digitChar (n - 48) = Char.ofNat n := by
  interval_cases n <;> rfl

theorem digitVal_digitChar (k : Nat) (hk : k < 10) :
    digitVal (Nat.digitChar k) = k ∧ isDigitChar (Nat.digitChar k) = true := by
  interval_cases k <;> exact ⟨rfl, rfl⟩

theorem digitChar_digitVal (c : Char) (h : isDigitChar c = true) :
    Nat.digitChar (digitVal c) = c := by
  unfold isDigitChar at h
  simp only [Bool.and_eq_true, decide_eq_true_eq] at h
  have h1 : 48 ≤ c.toNat := h.1
  have h2 : c.toNat ≤ 57 := h.2
  unfold digitVal
  rw [digitChar_of_digit c.toNat h1 h2, Char.ofNat_toNat]

/-- Parsing is a left inverse of rendering for valid four-digit-year dates. -/
theorem parseDateString_renderDate (y m d : Nat) (hy : y ≤ 9999)
    (hv : validDate (y : Int) m d = true) :
    parseDateString (renderDate (y : Int) m d) = some ((y : Int), m, d) := by
  have hm100 : m < 100 := by
    unfold validDate at hv
    simp only [Bool.and_eq_true, decide_eq_true_eq] at hv
    have := hv.1.1.2
    omega
  have hd100 : d < 100 := by
    unfold validDate at hv
    simp only [Bool.and_eq_true, decide_eq_true_eq] at hv
    have h1 := hv.2
    have h2 : daysInMonth (isLeap (y : Int)) m ≤ 31 := by
      unfold daysInMonth
      repeat' split
      all_goals omega
    omega
  have hdata : (renderDate (y : Int) m d).data
      = [Nat.digitChar (y / 1000 % 10), Nat.digitChar (y / 100 % 10),
         Nat.digitChar (y / 10 % 10), Nat.digitChar (y % 10), '-',
         Nat.digitChar (m / 10 % 10), Nat.digitChar (m % 10), '-',
         Nat.digitChar (d / 10 % 10), Nat.digitChar (d % 10)] := by
    show (pad4 ((y : Int)).toNat ++ '-' :: pad2 m ++ '-' :: pad2 d) = _
    rw [Int.toNat_natCast]
    rfl
  unfold parseDateString
  rw [hdata]
  dsimp only
  obtain ⟨hv1, hc1⟩ := digitVal_digitChar (y / 1000 % 10) (by omega)
  obtain ⟨hv2, hc2⟩ := digitVal_digitChar (y / 100 % 10) (by omega)
  obtain ⟨hv3, hc3⟩ := digitVal_digitChar (y / 10 % 10) (by omega)
  obtain ⟨hv4, hc4⟩ := digitVal_digitChar (y % 10) (by omega)
  obtain ⟨hv5, hc5⟩ := digitVal_digitChar (m / 10 % 10) (by omega)
  obtain ⟨hv6, hc6⟩ := digitVal_digitChar (m % 10) (by omega)
  obtain ⟨hv7, hc7⟩ := digitVal_digitChar (d / 10 % 10) (by omega)
  obtain ⟨hv8, hc8⟩ := digitVal_digitChar (d % 10) (by omega)
  rw [if_pos ⟨rfl, rfl, hc1, hc2, hc3, hc4, hc5, hc6, hc7, hc8⟩]
  have hyv : 1000 * digitVal (Nat.digitChar (y / 1000 % 10))
      + 100 * digitVal (Nat.digitChar (y / 100 % 10))
      + 10 * digitVal (Nat.digitChar (y / 10 % 10))
      + digitVal (Nat.digitChar (y % 10)) = y := by
    rw [hv1, hv2, hv3, hv4]; omega
  have hmv : 10 * digitVal (Nat.digitChar (m / 10 % 10))
      + digitVal (Nat.digitChar (m % 10)) = m := by
    rw [hv5, hv6]; omega
  have hdv : 10 * digitVal (Nat.digitChar (d / 10 % 10))
      + digitVal (Nat.digitChar (d % 10)) = d := by
    rw [hv7, hv8]; omega
  rw [hyv, hmv, hdv, if_pos hv]

/-- Rendering is a left inverse of parsing: a string accepted by
`parseDateString` is the canonical rendering of the date it parses to. -/
theorem renderDate_parseDateString (s : String) (y : Int) (m d : Nat)
    (h : parseDateString s = some (y, m, d)) :
    renderDate y m d = s ∧ validDate y m d = true ∧ ∃ yn : Nat, y = (yn : Int) ∧ yn ≤ 9999 := by
  unfold parseDateString at h
  split at h
  case h_2 => exact absurd h (by simp)
  case h_1 y1 y2 y3 y4 c1 m1 m2 c2 d1 d2 heq =>
    split at h
    case isFalse => exact absurd h (by simp)
    case isTrue hds =>
      split at h
      case isFalse => exact absurd h (by simp)
      case isTrue hvd =>
        obtain ⟨hc1, hc2, hy1, hy2, hy3, hy4, hm1, hm2, hd1, hd2⟩ := hds
        injection h with h
        obtain ⟨hye, hme, hde⟩ : y = ((1000 * digitVal y1 + 100 * digitVal y2
              + 10 * digitVal y3 + digitVal y4 : Nat) : Int) ∧
            m = 10 * digitVal m1 + digitVal m2 ∧ d = 10 * digitVal d1 + digitVal d2 := by
          have h1 := congrArg Prod.fst h
          have h2 := congrArg (fun p => p.2.1) h
          have h3 := congrArg (fun p => p.2.2) h
          exact ⟨h1.symm, h2.symm, h3.symm⟩
        have hvy1 : digitVal y1 < 10 := by
          unfold isDigitChar at hy1
          simp only [Bool.and_eq_true, decide_eq_true_eq] at hy1
          have : y1.toNat ≤ 57 := hy1.2
          unfold digitVal
          omega
        have hvy2 : digitVal y2 < 10 := by
          unfold isDigitChar at hy2
          simp only [Bool.and_eq_true, decide_eq_true_eq] at hy2
          have : y2.toNat ≤ 57 := hy2.2
          unfold digitVal
          omega
        have hvy3 : digitVal y3 < 10 := by
          unfold isDigitChar at hy3
          simp only [Bool.and_eq_true, decide_eq_true_eq] at hy3
          have : y3.toNat ≤ 57 := hy3.2
          unfold digitVal
          omega
        have hvy4 : digitVal y4 < 10 := by
          unfold isDigitChar at hy4
          simp only [Bool.and_eq_true, decide_eq_true_eq] at hy4
          have : y4.toNat ≤ 57 := hy4.2
          unfold digitVal
          omega
        have hvm1 : digitVal m1 < 10 := by
          unfold isDigitChar at hm1
          simp only [Bool.and_eq_true, decide_eq_true_eq] at hm1
          have : m1.toNat ≤ 57 := hm1.2
          unfold digitVal
          omega
        have hvm2 : digitVal m2 < 10 := by
          unfold isDigitChar at hm2
          simp only [Bool.and_eq_true, decide_eq_true_eq] at hm2
          have : m2.toNat ≤ 57 := hm2.2
          unfold digitVal
          omega
        have hvd1 : digitVal d1 < 10 := by
          unfold isDigitChar at hd1
          simp only [Bool.and_eq_true, decide_eq_true_eq] at hd1
          have : d1.toNat ≤ 57 := hd1.2
          unfold digitVal
          omega
        have hvd2 : digitVal d2 < 10 := by
          unfold isDigitChar at hd2
          simp only [Bool.and_eq_true, decide_eq_true_eq] at hd2
          have : d2.toNat ≤ 57 := hd2.2
          unfold digitVal
          omega
        refine ⟨?_, by rw [hye, hme, hde]; exact hvd, ?_⟩
        · cases s with
          | mk data =>
            simp only at heq
            subst heq
            show String.mk (pad4 y.toNat ++ '-' :: pad2 m ++ '-' :: pad2 d) = _
            have hyn : y.toNat = 1000 * digitVal y1 + 100 * digitVal y2
                + 10 * digitVal y3 + digitVal y4 := by
              rw [hye, Int.toNat_natCast]
            have hpy : pad4 y.toNat = [y1, y2, y3, y4] := by
              unfold pad4
              rw [hyn]
              have e1 : (1000 * digitVal y1 + 100 * digitVal y2 + 10 * digitVal y3
                  + digitVal y4) / 1000 % 10 = digitVal y1 := by omega
              have e2 : (1000 * digitVal y1 + 100 * digitVal y2 + 10 * digitVal y3
                  + digitVal y4) / 100 % 10 = digitVal y2 := by omega
              have e3 : (1000 * digitVal y1 + 100 * digitVal y2 + 10 * digitVal y3
                  + digitVal y4) / 10 % 10 = digitVal y3 := by omega
              have e4 : (1000 * digitVal y1 + 100 * digitVal y2 + 10 * digitVal y3
                  + digitVal y4) % 10 = digitVal y4 := by omega
              rw [e1, e2, e3, e4, digitChar_digitVal y1 hy1, digitChar_digitVal y2 hy2,
                digitChar_digitVal y3 hy3, digitChar_digitVal y4 hy4]
            have hpm : pad2 m = [m1, m2] := by
              unfold pad2
              rw [hme]
              have e1 : (10 * digitVal m1 + digitVal m2) / 10 % 10 = digitVal m1 := by omega
              have e2 : (10 * digitVal m1 + digitVal m2) % 10 = digitVal m2 := by omega
              rw [e1, e2, digitChar_digitVal m1 hm1, digitChar_digitVal m2 hm2]
            have hpd : pad2 d = [d1, d2] := by
              unfold pad2
              rw [hde]
              have e1 : (10 * digitVal d1 + digitVal d2) / 10 % 10 = digitVal d1 := by omega
              have e2 : (10 * digitVal d1 + digitVal d2) % 10 = digitVal d2 := by omega
              rw [e1, e2, digitChar_digitVal d1 hd1, digitChar_digitVal d2 hd2]
            rw [hpy, hpm, hpd, hc1, hc2]
            rfl
        · refine ⟨1000 * digitVal y1 + 100 * digitVal y2 + 10 * digitVal y3 + digitVal y4,
            hye, by omega⟩

/-! ## Data model

Translated from `internal/beans/types.go`, `internal/config/config.go` and the
task/request types used by `internal/clickup/sync.go` (`TaskInfo`,
`CreateTaskRequest`, `UpdateTaskRequest`, `Tag`, `TaskPriority`).
Timestamps are epoch milliseconds (`Int`); `time.Time.After` is `<`.
-/

/-- JSON-ish custom-field values (`any` in Go): string, number, or null. -/
inductive CFValue where
  | str (s : String)
  | num (n : Int)
  | null
deriving DecidableEq, Repr

/-- `beans.Bean`.  The Go field `Type` is `btype` here (`type` is reserved). -/
structure Bean where
  id : String
  title : String
  status : String
  btype : String
  priority : String
  body : String
  parent : String
  createdAt : Option Int
  updatedAt : Option Int
  due : Option String
  blocking : List String
  tags : List String
deriving DecidableEq, Repr

/-- `clickup.Status`. -/
structure Status where
  status : String
  color : String
deriving DecidableEq, Repr

/-- Task priority object in ClickUp responses (`TaskPriority`). -/
structure TaskPriority where
  id : Int
deriving DecidableEq, Repr

/-- `clickup.Tag`. -/
structure Tag where
  name : String
deriving DecidableEq, Repr

/-- `clickup.CustomField`: a custom field id/value pair. -/
structure CustomField where
  id : String
  value : CFValue
deriving DecidableEq, Repr

/-- `clickup.TaskInfo` with the fields `syncBean` reads. -/
structure TaskInfo where
  id : String
  name : String
  description : String
  status : Status
  url : String
  parent : Option String
  priority : Option TaskPriority
  dueDate : Option String
  customFields : List CustomField
  tags : List Tag
  customItemID : Option Int
deriving DecidableEq, Repr

/-- `clickup.CreateTaskRequest` with the fields `syncBean` sets. -/
structure CreateTaskRequest where
  name : String
  markdownDescription : String
  status : String
  priority : Option Int
  assignees : List Int
  parent : Option String
  customFields : List CustomField
  customItemID : Option Int
  dueDate : Option Int
  dueDatetime : Option Bool
deriving DecidableEq, Repr

/-- `clickup.UpdateTaskRequest` with the fields `buildUpdateRequest` sets. -/
structure UpdateTaskRequest where
  name : Option String
  markdownDescription : Option String
  status : Option String
  priority : Option Int
  dueDate : Option Int
  dueDatetime : Option Bool
  customItemID : Option Int
deriving DecidableEq, Repr

/-- The empty update request (`&UpdateTaskRequest{}`). -/
def emptyUpdate : UpdateTaskRequest :=
  { name := none, markdownDescription := none, status := none, priority := none,
    dueDate := none, dueDatetime := none, customItemID := none }

/-- Modelled from the spec: `hasChanges` is called by `syncBean` ("Check if
any core fields changed"; "write only the non-empty parts") but its body is
not among the provided sources; it reports whether the update request carries
any field. -/
def UpdateTaskRequest.hasChanges (u : UpdateTaskRequest) : Bool :=
  u.name.isSome || u.markdownDescription.isSome || u.status.isSome ||
  u.priority.isSome || u.dueDate.isSome || u.dueDatetime.isSome || u.customItemID.isSome

/-- `clickup.AuthorizedUser`. -/
structure AuthorizedUser where
  id : Int
  username : String
  email : String
deriving DecidableEq, Repr

/-- `config.CustomFieldsMap`. -/
structure CustomFieldsMap where
  beanID : String
  createdAt : String
  updatedAt : String

/-- `config.ClickUpConfig` (Go maps become lookup functions). -/
structure ClickUpConfig where
  listID : String
  assignee : Option Int
  statusMapping : Option (String → Option String)
  priorityMapping : Option (String → Option Int)
  typeMapping : Option (String → Option Int)
  customFields : Option CustomFieldsMap

/-- `config.DefaultStatusMapping`. -/
def defaultStatusMapping : String → Option String
  | "draft" => some "backlog"
  | "todo" => some "to do"
  | "in-progress" => some "in progress"
  | "completed" => some "complete"
  | "scrapped" => some "closed"
  | _ => none

/-- `config.DefaultPriorityMapping` (1=Urgent, 2=High, 3=Normal, 4=Low). -/
def defaultPriorityMapping : String → Option Int
  | "critical" => some 1
  | "high" => some 2
  | "normal" => some 3
  | "low" => some 4
  | "deferred" => some 4
  | _ => none

/-- `clickup.SyncOptions`. -/
structure SyncOptions where
  dryRun : Bool
  force : Bool
  noRelationships : Bool
  listID : String
deriving DecidableEq, Repr

/-- `clickup.SyncResult`. -/
structure SyncResult where
  beanID : String
  beanTitle : String
  taskID : String
  taskURL : String
  action : String
  error : Option String
deriving DecidableEq, Repr

/-! ## Sync state store (the `SyncStateProvider` interface)

Both providers (`syncstate.Store` and `clickup.ExtensionSyncProvider`) expose
the same observable behavior through `GetTaskID` / `GetSyncedAt` /
`SetTaskID` / `SetSyncedAt` / `Clear`; we model the state as a partial map
from bean id to a link entry.
-/

/-- One bean's link state: remote task id and last-synced timestamp. -/
structure StoreEntry where
  taskID : String
  syncedAt : Option Int
deriving DecidableEq, Repr

/-- Sync-state-store contents. -/
def Store : Type := String → Option StoreEntry

/-- `GetTaskID`: `nil` when absent or empty. -/
def storeGetTaskID (st : Store) (bid : String) : Option String :=
  match st bid with
  | some e => if e.taskID = "" then none else some e.taskID
  | none => none

/-- `GetSyncedAt`. -/
def storeGetSyncedAt (st : Store) (bid : String) : Option Int :=
  match st bid with
  | some e => e.syncedAt
  | none => none

/-- `SetTaskID` (creates the entry if needed, keeps `syncedAt`). -/
def storeSetTaskID (st : Store) (bid tid : String) : Store := fun k =>
  if k = bid then
    some { taskID := tid, syncedAt := storeGetSyncedAt st bid }
  else st k

/-- `SetSyncedAt` (creates the entry if needed, keeps `taskID`). -/
def storeSetSyncedAt (st : Store) (bid : String) (t : Int) : Store := fun k =>
  if k = bid then
    some { taskID := (match st bid with | some e => e.taskID | none => ""),
           syncedAt := some t }
  else st k

/-- `Clear`. -/
def storeClear (st : Store) (bid : String) : Store := fun k =>
  if k = bid then none else st k

/-- The `Syncer.beanToTaskID` map. -/
def BeanMap : Type := String → Option String

/-- Map insertion (`m[k] = v`). -/
def mapInsert (m : BeanMap) (k v : String) : BeanMap := fun x =>
  if x = k then some v else m x

/-! ## Remote-call and store-mutation events -/

/-- One ClickUp API call, as issued by the engine. -/
inductive RemoteCall where
  | getTask (taskID : String)
  | createTask (listID : String) (req : CreateTaskRequest)
  | updateTask (taskID : String) (req : UpdateTaskRequest)
  | addTag (taskID tag : String)
  | removeTag (taskID tag : String)
  | ensureSpaceTag (spaceID tag : String)
  | setCustomField (taskID fieldID : String) (value : CFValue)
  | addDependency (taskID dependsOn : String)
deriving DecidableEq, Repr

/-- One sync-state-store mutation. -/
inductive StoreOp where
  | setTaskID (beanID taskID : String)
  | setSyncedAt (beanID : String) (t : Int)
  | clear (beanID : String)
deriving DecidableEq, Repr

/-- An engine-side effect: a remote call or a store mutation. -/
inductive Event where
  | call (c : RemoteCall)
  | store (op : StoreOp)
deriving DecidableEq, Repr

/-- Is the event a remote write (anything except a `getTask` read)? -/
def isRemoteWrite : Event → Bool
  | .call (.getTask _) => false
  | .call _ => true
  | .store _ => false

/-- Oracle for remote results: what the ClickUp service answers. -/
structure Env where
  now : Int
  getAuthorizedUser : Except String AuthorizedUser
  getTask : String → Except String TaskInfo
  createTask : String → CreateTaskRequest → Except String TaskInfo
  updateTask : String → UpdateTaskRequest → Except String TaskInfo
  addTag : String → String → Except String Unit
  removeTag : String → String → Except String Unit
  ensureSpaceTag : String → String → Except String Unit
  setCustomField : String → String → CFValue → Except String Unit
  addDependency : String → String → Except String Unit

/-- The syncer's ambient data: config, options, space id, timezone, oracle. -/
structure SyncCtx where
  cfg : Option ClickUpConfig
  opts : SyncOptions
  spaceID : String
  tz : Int
  env : Env

/-! ## Diff/mapping engine (pure functions of `sync.go`) -/

/-- `buildTaskDescription`. -/
def buildTaskDescription (b : Bean) : String := b.body

/-- `getClickUpStatus`: custom mapping, then default mapping, then `""`. -/
def getClickUpStatus (cfg : Option ClickUpConfig) (beanStatus : String) : String :=
  match cfg with
  | some c =>
    match c.statusMapping with
    | some sm =>
      match sm beanStatus with
      | some s => s
      | none => (defaultStatusMapping beanStatus).getD ""
    | none => (defaultStatusMapping beanStatus).getD ""
  | none => (defaultStatusMapping beanStatus).getD ""

/-- `getClickUpPriority`: custom mapping, then default mapping, else absent. -/
def getClickUpPriority (cfg : Option ClickUpConfig) (beanPriority : String) : Option Int :=
  if beanPriority = "" then none
  else
    match cfg with
    | some c =>
      match c.priorityMapping with
      | some pm =>
        match pm beanPriority with
        | some p => some p
        | none => defaultPriorityMapping beanPriority
      | none => defaultPriorityMapping beanPriority
    | none => defaultPriorityMapping beanPriority

/-- `getClickUpCustomItemID`: custom mapping only, else absent. -/
def getClickUpCustomItemID (cfg : Option ClickUpConfig) (beanType : String) : Option Int :=
  if beanType = "" then none
  else
    match cfg with
    | some c =>
      match c.typeMapping with
      | some tm => tm beanType
      | none => none
    | none => none

/-- `priorityEqual`. -/
def priorityEqual (current : Option TaskPriority) (target : Option Int) : Bool :=
  match current, target with
  | none, none => true
  | some c, some t => c.id == t
  | _, _ => false

/-- `intPtrEqual` / `int64PtrEqual`. -/
def intPtrEqual (a b : Option Int) : Bool :=
  match a, b with
  | none, none => true
  | some x, some y => x == y
  | _, _ => false

/-- `parseBeanDueDate` + `toLocalDateMillis` as used by `beanDueToMillis`. -/
def beanDueToMillis (tz : Int) (due : Option String) : Option Int :=
  match due with
  | none => none
  | some s =>
    if s = "" then none
    else
      match parseBeanDueDate tz s with
      | none => none
      | some t => some (toLocalDateMillis tz t)

/-- `clickUpDueToMillis`: parse ClickUp's `due_date` string (Unix ms). -/
def clickUpDueToMillis (s : Option String) : Option Int :=
  match s with
  | none => none
  | some v => if v = "" then none else parseGoInt v

/-- `getAssignees`. -/
def getAssignees (cfg : Option ClickUpConfig) (env : Env) : List Int :=
  match cfg with
  | some c =>
    match c.assignee with
    | some a => if a == 0 then [] else [a]
    | none =>
      match env.getAuthorizedUser with
      | .ok u => [u.id]
      | .error _ => []
  | none =>
    match env.getAuthorizedUser with
    | .ok u => [u.id]
    | .error _ => []

/-- `buildCustomFields`. -/
def buildCustomFields (cfg : Option ClickUpConfig) (tz : Int) (b : Bean) :
    List CustomField :=
  match cfg with
  | none => []
  | some c =>
    match c.customFields with
    | none => []
    | some cf =>
      (if cf.beanID ≠ "" then [⟨cf.beanID, .str b.id⟩] else []) ++
      (match b.createdAt with
       | some t => if cf.createdAt ≠ "" then [⟨cf.createdAt, .num (toLocalDateMillis tz t)⟩] else []
       | none => []) ++
      (match b.updatedAt with
       | some t => if cf.updatedAt ≠ "" then [⟨cf.updatedAt, .num (toLocalDateMillis tz t)⟩] else []
       | none => [])

/-- `buildUpdateRequest`: include only fields that differ from `current`. -/
def buildUpdateRequest (cfg : Option ClickUpConfig) (tz : Int) (current : TaskInfo)
    (b : Bean) (description : String) (priority : Option Int) (clickUpStatus : String) :
    UpdateTaskRequest :=
  { name := if current.name ≠ b.title then some b.title else none
    markdownDescription :=
      if current.description ≠ description then some description else none
    priority := if ¬ priorityEqual current.priority priority then priority else none
    status :=
      if clickUpStatus ≠ "" ∧ current.status.status ≠ clickUpStatus then some clickUpStatus
      else none
    dueDate :=
      if ¬ intPtrEqual (clickUpDueToMillis current.dueDate) (beanDueToMillis tz b.due) then
        match beanDueToMillis tz b.due with
        | some v => some v
        | none => some 0
      else none
    dueDatetime :=
      if ¬ intPtrEqual (clickUpDueToMillis current.dueDate) (beanDueToMillis tz b.due) then
        match beanDueToMillis tz b.due with
        | some _ => some false
        | none => none
      else none
    customItemID :=
      if ¬ intPtrEqual current.customItemID (getClickUpCustomItemID cfg b.btype) then
        getClickUpCustomItemID cfg b.btype
      else none }

/-- `customFieldDateEqual`: compare a remote custom-field value (string or
number) against a target milliseconds value. -/
def customFieldDateEqual (current : Option CFValue) (target : Int) : Bool :=
  match current with
  | none => false
  | some .null => false
  | some (.str v) =>
    match parseGoInt v with
    | some parsed => parsed == target
    | none => false
  | some (.num n) => n == target

/-- Lookup in the `currentFields` map that `updateChangedCustomFields` builds
(later entries overwrite earlier ones, as Go map insertion does). -/
def lookupField (fields : List CustomField) (key : String) : Option CFValue :=
  match (fields.reverse.find? fun f => f.id == key) with
  | some f => some f.value
  | none => none

/-! ## Tag sync -/

/-- The add loop of `syncTags`: for each bean tag missing remotely, ensure the
space tag (when a space id is known) and add the tag to the task; `changed`
records whether any add call succeeded. -/
def syncTagsAdds (env : Env) (spaceID taskID : String) (currentNames : List String) :
    List String → Bool × List Event
  | [] => (false, [])
  | t :: rest =>
    let r := syncTagsAdds env spaceID taskID currentNames rest
    if currentNames.contains t then r
    else
      let ensureEvs : List Event :=
        if spaceID ≠ "" then [.call (.ensureSpaceTag spaceID t)] else []
      let ok : Bool := match env.addTag taskID t with | .ok _ => true | .error _ => false
      (ok || r.1, ensureEvs ++ [.call (.addTag taskID t)] ++ r.2)

/-- The remove loop of `syncTags`: remove remote tags not desired any more. -/
def syncTagsRemoves (env : Env) (taskID : String) (desired : List String) :
    List String → Bool × List Event
  | [] => (false, [])
  | t :: rest =>
    let r := syncTagsRemoves env taskID desired rest
    if desired.contains t then r
    else
      let ok : Bool := match env.removeTag taskID t with | .ok _ => true | .error _ => false
      (ok || r.1, .call (.removeTag taskID t) :: r.2)

/-- `syncTags`: reconcile bean tags against the task's current tags. -/
def syncTags (env : Env) (spaceID taskID : String) (b : Bean) (currentTags : List Tag) :
    Bool × List Event :=
  let adds := syncTagsAdds env spaceID taskID (currentTags.map Tag.name) b.tags
  let removes := syncTagsRemoves env taskID b.tags (currentTags.map Tag.name)
  (adds.1 || removes.1, adds.2 ++ removes.2)

/-! ## Custom-field sync -/

/-- `updateChangedCustomFields`: set only custom fields whose remote value
differs; best-effort, returns whether any field was updated. -/
def updateChangedCustomFields (c : SyncCtx) (current : TaskInfo) (taskID : String)
    (b : Bean) : Bool × List Event :=
  match c.cfg with
  | none => (false, [])
  | some cfgv =>
    match cfgv.customFields with
    | none => (false, [])
    | some cf =>
      let fields := current.customFields
      let step1 : Bool × List Event :=
        if cf.beanID ≠ "" then
          let currentVal : String :=
            match lookupField fields cf.beanID with
            | some (.str s) => s
            | _ => ""
          if currentVal ≠ b.id then
            match c.env.setCustomField taskID cf.beanID (.str b.id) with
            | .ok _ => (true, [.call (.setCustomField taskID cf.beanID (.str b.id))])
            | .error _ => (false, [.call (.setCustomField taskID cf.beanID (.str b.id))])
          else (false, [])
        else (false, [])
      let step2 : Bool × List Event :=
        match b.createdAt with
        | some t =>
          if cf.createdAt ≠ "" then
            let newVal := toLocalDateMillis c.tz t
            if ¬ customFieldDateEqual (lookupField fields cf.createdAt) newVal then
              match c.env.setCustomField taskID cf.createdAt (.num newVal) with
              | .ok _ => (true, [.call (.setCustomField taskID cf.createdAt (.num newVal))])
              | .error _ => (false, [.call (.setCustomField taskID cf.createdAt (.num newVal))])
            else (false, [])
          else (false, [])
        | none => (false, [])
      let step3 : Bool × List Event :=
        match b.updatedAt with
        | some t =>
          if cf.updatedAt ≠ "" then
            let newVal := toLocalDateMillis c.tz t
            if ¬ customFieldDateEqual (lookupField fields cf.updatedAt) newVal then
              match c.env.setCustomField taskID cf.updatedAt (.num newVal) with
              | .ok _ => (true, [.call (.setCustomField taskID cf.updatedAt (.num newVal))])
              | .error _ => (false, [.call (.setCustomField taskID cf.updatedAt (.num newVal))])
            else (false, [])
          else (false, [])
        | none => (false, [])
      (step1.1 || step2.1 || step3.1, step1.2 ++ step2.2 ++ step3.2)

/-! ## Per-bean reconciliation (`syncBean`) -/

/-- `needsSync`: a bean needs sync when it was never synced, or its update
timestamp is strictly after the recorded synced-at; an absent update
timestamp counts as in sync. -/
def needsSync (st : Store) (b : Bean) : Bool :=
  match storeGetSyncedAt st b.id with
  | none => true
  | some syncedAt =>
    match b.updatedAt with
    | none => false
    | some u => syncedAt < u

/-- Output of one `syncBean` step: the per-bean result, the effect trace, the
store after the step, and the `beanToTaskID` map after the step. -/
structure BeanStepOut where
  result : SyncResult
  events : List Event
  store : Store
  map : BeanMap

/-- The `CreateTaskRequest` that `syncBean` builds: mapped fields, due date
at local midnight with the date-only flag, and the parent reference when the
parent bean is already known in the bean→task map. -/
def buildCreateRequest (c : SyncCtx) (m : BeanMap) (b : Bean)
    (description clickUpStatus : String) (priority : Option Int) : CreateTaskRequest :=
  let base : CreateTaskRequest :=
    { name := b.title
      markdownDescription := description
      status := clickUpStatus
      priority := priority
      assignees := getAssignees c.cfg c.env
      parent := none
      customFields := buildCustomFields c.cfg c.tz b
      customItemID := getClickUpCustomItemID c.cfg b.btype
      dueDate := none
      dueDatetime := none }
  let withDue : CreateTaskRequest :=
    match b.due with
    | some dueStr =>
      match parseBeanDueDate c.tz dueStr with
      | some dueT =>
        { base with dueDate := some (toLocalDateMillis c.tz dueT),
                    dueDatetime := some false }
      | none => base
    | none => base
  if b.parent ≠ "" then
    match m b.parent with
    | some parentTaskID => { withDue with parent := some parentTaskID }
    | none => withDue
  else withDue

/-- The task-creation tail of `syncBean` (also reached after a stale link is
cleared).  `result0` already carries the bean id/title (and, after a cleared
link, the old task id, which Go leaves in the result on the dry-run path). -/
def createFlow (c : SyncCtx) (st : Store) (m : BeanMap) (b : Bean)
    (result0 : SyncResult) (description clickUpStatus : String)
    (priority : Option Int) (events0 : List Event) : BeanStepOut :=
  if c.opts.dryRun then
    { result := { result0 with action := "would create" }, events := events0,
      store := st, map := m }
  else
    let createReq : CreateTaskRequest :=
      buildCreateRequest c m b description clickUpStatus priority
    match c.env.createTask c.opts.listID createReq with
    | .error e =>
      { result := { result0 with action := "error", error := some ("creating task: " ++ e) }
        events := events0 ++ [.call (.createTask c.opts.listID createReq)]
        store := st, map := m }
    | .ok task =>
      let tagsOut := syncTags c.env c.spaceID task.id b []
      { result := { result0 with taskID := task.id, taskURL := task.url, action := "created" }
        events := events0 ++ [.call (.createTask c.opts.listID createReq)] ++ tagsOut.2 ++
          [.store (.setTaskID b.id task.id), .store (.setSyncedAt b.id c.env.now)]
        store := storeSetSyncedAt (storeSetTaskID st b.id task.id) b.id c.env.now
        map := mapInsert m b.id task.id }

/-- Embeds `syncBean` (src/internal/clickup/sync.go). -/
def syncBean (c : SyncCtx) (st : Store) (m : BeanMap) (b : Bean) : BeanStepOut :=
  let result0 : SyncResult :=
    { beanID := b.id, beanTitle := b.title, taskID := "", taskURL := "",
      action := "", error := none }
  let description := buildTaskDescription b
  let clickUpStatus := getClickUpStatus c.cfg b.status
  let priority := getClickUpPriority c.cfg b.priority
  match storeGetTaskID st b.id with
  | some taskID =>
    let result1 := { result0 with taskID := taskID }
    if ¬ c.opts.force ∧ ¬ needsSync st b then
      { result := { result1 with action := "skipped" }, events := [], store := st, map := m }
    else
      match c.env.getTask taskID with
      | .error e =>
        if goContains e "Task not found" || goContains e "ITEM_013" then
          -- task was deleted remotely: unlink and fall through to creation
          createFlow c (storeClear st b.id) m b result1 description clickUpStatus priority
            [.call (.getTask taskID), .store (.clear b.id)]
        else
          { result := { result1 with
                          action := "error",
                          error := some ("fetching task " ++ taskID ++ ": " ++ e) }
            events := [.call (.getTask taskID)], store := st, map := m }
      | .ok task =>
        let result2 := { result1 with taskURL := task.url }
        if c.opts.dryRun then
          { result := { result2 with action := "would update" }
            events := [.call (.getTask taskID)], store := st, map := m }
        else
          let update := buildUpdateRequest c.cfg c.tz task b description priority clickUpStatus
          match (if update.hasChanges then
                   match c.env.updateTask taskID update with
                   | .error e => some e
                   | .ok _ => none
                 else none : Option String) with
          | some e =>
            { result := { result2 with
                            action := "error",
                            error := some ("updating task: " ++ e) }
              events := [.call (.getTask taskID), .call (.updateTask taskID update)]
              store := st, map := m }
          | none =>
            let urlAfter :=
              if update.hasChanges then
                match c.env.updateTask taskID update with
                | .ok updatedTask => updatedTask.url
                | .error _ => task.url
              else task.url
            let updateEvs : List Event :=
              if update.hasChanges then [.call (.updateTask taskID update)] else []
            let cfOut := updateChangedCustomFields c task taskID b
            let tagsOut := syncTags c.env c.spaceID taskID b task.tags
            { result := { result2 with
                            taskURL := urlAfter,
                            action := if update.hasChanges || cfOut.1 || tagsOut.1
                                      then "updated" else "unchanged" }
              events := [.call (.getTask taskID)] ++ updateEvs ++ cfOut.2 ++ tagsOut.2 ++
                [.store (.setSyncedAt b.id c.env.now)]
              store := storeSetSyncedAt st b.id c.env.now
              map := m }
  | none =>
    createFlow c st m b result0 description clickUpStatus priority []

/-! ## Orchestrator (`SyncBeans`)

The Go orchestrator runs each layer's beans on concurrent workers with a
barrier (`wg.Wait()`) between passes; shared state (`beanToTaskID`, the sync
store) is mutex-protected, so every execution is equivalent to processing
Pass-1 beans in some order, then Pass-2 beans in some order.  `syncRun` takes
those two serialization orders explicitly; `SyncBeans` instantiates them with
the input order, and theorems quantify over arbitrary orders where the
schedule matters.
-/

/-- Accumulated run state: store, shared bean→task map, per-bean outputs in
processing order. -/
structure RunState where
  store : Store
  map : BeanMap
  outs : List (String × SyncResult × List Event)

/-- Process one bean: run `syncBean`, then record the task id in the shared
map (as the worker body does for non-skipped, non-error results). -/
def processBean (c : SyncCtx) (rs : RunState) (b : Bean) : RunState :=
  let out := syncBean c rs.store rs.map b
  let m' :=
    if out.result.error = none ∧ out.result.action ≠ "skipped" ∧ out.result.taskID ≠ "" then
      mapInsert out.map b.id out.result.taskID
    else out.map
  { store := out.store, map := m', outs := rs.outs ++ [(b.id, out.result, out.events)] }

/-- One pass over a list of beans. -/
def runPass (c : SyncCtx) (rs : RunState) (bs : List Bean) : RunState :=
  bs.foldl (processBean c) rs

/-- Pass-1 membership: a bean is a root when it has no parent or its parent
is not being synced. -/
def isRoot (syncingIDs : List String) (b : Bean) : Bool :=
  b.parent = "" || ¬ syncingIDs.contains b.parent

/-- The Pass-1 layer (`parents` in the Go code). -/
def rootsOf (beanList : List Bean) : List Bean :=
  beanList.filter (isRoot (beanList.map Bean.id))

/-- The Pass-2 layer (`children` in the Go code). -/
def childrenOf (beanList : List Bean) : List Bean :=
  beanList.filter fun b => ¬ isRoot (beanList.map Bean.id) b

/-- Pre-populate the bean→task map from the sync store. -/
def preloadMap (st : Store) (beanList : List Bean) : BeanMap :=
  beanList.foldl
    (fun m b =>
      match storeGetTaskID st b.id with
      | some tid => mapInsert m b.id tid
      | none => m)
    (fun _ => none)

/-- `syncRelationships`: for each blocked bean that is synced, add a remote
dependency edge (blocked task waits on this bean's task).  Failures are
swallowed, so the emitted calls do not depend on the oracle. -/
def syncRelationships (m : BeanMap) (b : Bean) : List Event :=
  match m b.id with
  | none => []
  | some taskID =>
    b.blocking.foldr
      (fun blockedID acc =>
        match m blockedID with
        | none => acc
        | some blockedTaskID => .call (.addDependency blockedTaskID taskID) :: acc)
      []

/-- Output of a whole run. -/
structure RunOut where
  results : List (String × SyncResult × List Event)
  relEvents : List Event
  store : Store
  map : BeanMap

/-- A run with explicit serialization orders for the two passes. -/
def syncRun (c : SyncCtx) (st0 : Store) (beanList ord1 ord2 : List Bean) : RunOut :=
  let m0 := preloadMap st0 beanList
  let rs1 := runPass c { store := st0, map := m0, outs := [] } ord1
  let rs2 := runPass c rs1 ord2
  let relEvents :=
    if ¬ c.opts.noRelationships ∧ ¬ c.opts.dryRun then
      beanList.foldr (fun b acc => syncRelationships rs2.map b ++ acc) []
    else []
  { results := rs2.outs, relEvents := relEvents, store := rs2.store, map := rs2.map }

/-- Embeds `SyncBeans` (src/internal/clickup/sync.go), serialized in input
order within each pass. -/
def SyncBeans (c : SyncCtx) (st0 : Store) (beanList : List Bean) : RunOut :=
  syncRun c st0 beanList (rootsOf beanList) (childrenOf beanList)

/-- All effects of a run, in order. -/
def allEvents (ro : RunOut) : List Event :=
  (ro.results.foldr (fun o acc => o.2.2 ++ acc) []) ++ ro.relEvents

/-! ## Deferred-batched sync state provider (`external_sync.go`) -/

/-- `extensionCache`: cached link state for one bean. -/
structure ExtData where
  taskID : String
  syncedAt : Option Int
deriving DecidableEq, Repr

/-- `beans.ExtensionDataOp` (the `Data` map holds `task_id` and optionally
`synced_at`; RFC3339 formatting of the timestamp is abstracted away). -/
structure ExtensionDataOp where
  beanID : String
  name : String
  data : ExtData
deriving DecidableEq, Repr

/-- `pendingOp`: `set = none` means removal. -/
structure PendingOp where
  beanID : String
  set : Option ExtensionDataOp
deriving DecidableEq, Repr

/-- `ExtensionSyncProvider` state: the in-memory cache and pending ops. -/
structure PState where
  cache : String → Option ExtData
  ops : List PendingOp

/-- `appendSetOp`: append a pending set op snapshotting the bean's cache
entry (callers always create the entry first). -/
def appendSetOp (p : PState) (bid : String) : PState :=
  { p with
    ops := p.ops ++ [⟨bid, some ⟨bid, "clickup", (p.cache bid).getD ⟨"", none⟩⟩⟩] }

/-- `ExtensionSyncProvider.SetTaskID`. -/
def extSetTaskID (p : PState) (bid tid : String) : PState :=
  appendSetOp
    { p with cache := fun k =>
        if k = bid then some { taskID := tid, syncedAt := ((p.cache bid).getD ⟨"", none⟩).syncedAt }
        else p.cache k }
    bid

/-- `ExtensionSyncProvider.SetSyncedAt`. -/
def extSetSyncedAt (p : PState) (bid : String) (t : Int) : PState :=
  appendSetOp
    { p with cache := fun k =>
        if k = bid then some { taskID := ((p.cache bid).getD ⟨"", none⟩).taskID, syncedAt := some t }
        else p.cache k }
    bid

/-- `ExtensionSyncProvider.Clear`. -/
def extClear (p : PState) (bid : String) : PState :=
  { cache := fun k => if k = bid then none else p.cache k,
    ops := p.ops ++ [⟨bid, none⟩] }

/-- A remote call issued by `Flush`. -/
inductive FlushCall where
  | batch (ops : List ExtensionDataOp)
  | remove (beanID : String)
deriving DecidableEq, Repr

/-- Oracle for the beans-CLI GraphQL calls that `Flush` makes. -/
structure FlushEnv where
  setBatch : List ExtensionDataOp → Except String Unit
  removeOne : String → Except String Unit

/-- Deduplicate pending ops keeping, for each bean id, only the last op
(the Go code keeps the greatest index per bean via the `seen` map). -/
def dedupLast : List PendingOp → List PendingOp
  | [] => []
  | op :: rest =>
    if rest.any (fun o => o.beanID == op.beanID) then dedupLast rest
    else op :: dedupLast rest

/-- The removal loop of `Flush`: stop at the first failing remove. -/
def runRemoves (env : FlushEnv) : List String → Except String Unit × List FlushCall
  | [] => (.ok (), [])
  | bid :: rest =>
    match env.removeOne bid with
    | .error e => (.error e, [.remove bid])
    | .ok _ =>
      let r := runRemoves env rest
      (r.1, .remove bid :: r.2)

/-- Embeds `Flush` (src/internal/clickup/external_sync.go): take and clear the
pending ops, deduplicate keeping the last op per bean, issue one batched set
call for the final set ops, then one remove call per final removal. -/
def extFlush (env : FlushEnv) (p : PState) : Except String Unit × List FlushCall × PState :=
  let ops := p.ops
  let p' : PState := { p with ops := [] }
  if ops.isEmpty then (.ok (), [], p')
  else
    let lastOps := dedupLast ops
    let setOps := lastOps.filterMap (·.set)
    let removeIDs := (lastOps.filter fun o => o.set.isNone).map (·.beanID)
    if setOps.isEmpty then
      let rr := runRemoves env removeIDs
      (rr.1, rr.2, p')
    else
      match env.setBatch setOps with
      | .error e => (.error e, [.batch setOps], p')
      | .ok _ =>
        let rr := runRemoves env removeIDs
        (rr.1, .batch setOps :: rr.2, p')

/-- A mutation through the `SyncStateProvider` interface. -/
inductive ExtMut where
  | setTaskID (bid tid : String)
  | setSyncedAt (bid : String) (t : Int)
  | clear (bid : String)
deriving DecidableEq, Repr

/-- Bean id of a mutation. -/
def ExtMut.bid : ExtMut → String
  | .setTaskID b _ => b
  | .setSyncedAt b _ => b
  | .clear b => b

/-- Is the mutation a set (as opposed to a removal)? -/
def ExtMut.isSet : ExtMut → Bool
  | .clear _ => false
  | _ => true

/-- Apply one mutation. -/
def applyMut (p : PState) : ExtMut → PState
  | .setTaskID bid tid => extSetTaskID p bid tid
  | .setSyncedAt bid t => extSetSyncedAt p bid t
  | .clear bid => extClear p bid

/-- Apply a mutation sequence. -/
def applyMuts (p : PState) (muts : List ExtMut) : PState :=
  muts.foldl applyMut p

/-! ## Resilient API client (retry policy)

Modelled from the spec: the retry wrapper of the Resilient API Client (§4.2)
is not among the provided sources — only the engine that relies on it is.
Failures are classified retryable (HTTP 429 or the rate-limit error code,
transient network failure, 5xx) or fatal; retryable failures are retried with
exponential backoff plus jitter capped at 30 seconds per delay and at most 5
attempts; exhausting retries surfaces the last error.
-/

/-- A classified remote failure. -/
structure ApiFailure where
  status : Nat
  networkErr : Bool
  rateLimitCode : Bool
deriving DecidableEq, Repr

/-- Modelled from the spec: failure classification of the Resilient API
Client — rate-limited (HTTP 429 or the rate-limit error code), transient
network failure, or 5xx server error are retryable; everything else is
fatal. -/
def isRetryable (f : ApiFailure) : Bool :=
  f.networkErr || f.status == 429 || f.rateLimitCode ||
    (500 ≤ f.status && f.status ≤ 599)

/-- Modelled from the spec: exponential backoff with jitter, capped at a
30-second maximum single delay (milliseconds). -/
def backoffDelay (base jitter attempt : Nat) : Nat :=
  min (base * 2 ^ attempt + jitter) 30000

/-- Result of a retried call: outcome, attempts used, backoff delays slept. -/
structure RetryOut (A : Type) where
  result : Except ApiFailure A
  attempts : Nat
  delays : List Nat

/-- Modelled from the spec: the retry loop — attempt the call; on a
retryable failure with budget remaining, sleep the backoff delay and retry;
otherwise return the failure. -/
def retryGo {A : Type} (call : Nat → Except ApiFailure A) (base : Nat)
    (jitter : Nat → Nat) : Nat → Nat → RetryOut A
  | 0, i =>
    { result := call i, attempts := 1, delays := [] }
  | r + 1, i =>
    match call i with
    | .ok a => { result := .ok a, attempts := 1, delays := [] }
    | .error f =>
      if isRetryable f ∧ 0 < r then
        let rest := retryGo call base jitter r (i + 1)
        { result := rest.result, attempts := rest.attempts + 1,
          delays := backoffDelay base (jitter i) i :: rest.delays }
      else { result := .error f, attempts := 1, delays := [] }

/-- Modelled from the spec: run a remote call under the retry policy
(at most 5 attempts). -/
def runWithRetry {A : Type} (call : Nat → Except ApiFailure A) (base : Nat)
    (jitter : Nat → Nat) : RetryOut A :=
  retryGo call base jitter 5 0

/-! ## Concrete fixtures used by witness theorems -/

/-- A successful unit result. -/
def okUnit : Except String Unit := .ok ()

/-- A simple remote task. -/
def sampleTask (tid : String) : TaskInfo :=
  { id := tid, name := "T", description := "", status := ⟨"to do", ""⟩,
    url := "https://x/" ++ tid, parent := none, priority := none, dueDate := none,
    customFields := [], tags := [], customItemID := none }

/-- An oracle where every call succeeds. -/
def fixEnv : Env :=
  { now := 5000
    getAuthorizedUser := .error "auth unavailable"
    getTask := fun tid => .ok (sampleTask tid)
    createTask := fun _ req => .ok (sampleTask ("task-" ++ req.name))
    updateTask := fun tid _ => .ok (sampleTask tid)
    addTag := fun _ _ => okUnit
    removeTag := fun _ _ => okUnit
    ensureSpaceTag := fun _ _ => okUnit
    setCustomField := fun _ _ _ => okUnit
    addDependency := fun _ _ => okUnit }

/-- Default options: real run, no force. -/
def fixOpts : SyncOptions :=
  { dryRun := false, force := false, noRelationships := false, listID := "list-1" }

/-- Default context (no config, UTC, no space id). -/
def fixCtx : SyncCtx :=
  { cfg := none, opts := fixOpts, spaceID := "", tz := 0, env := fixEnv }

/-- A linked bean updated before its last sync. -/
def fixBean : Bean :=
  { id := "b1", title := "Bean one", status := "todo", btype := "task", priority := "",
    body := "body text", parent := "", createdAt := none, updatedAt := some 100,
    due := none, blocking := [], tags := ["x"] }

/-- A linked bean with no update timestamp. -/
def fixBeanNoUpd : Bean :=
  { fixBean with id := "b2", updatedAt := none }

/-- A store linking `b1` and `b2` to `t1`, synced at time 200. -/
def fixStore : Store := fun k =>
  if k = "b1" ∨ k = "b2" then some ⟨"t1", some 200⟩ else none

/-- The empty bean→task map. -/
def emptyBeanMap : BeanMap := fun _ => none

/-! ## C1 -/

/-- C1: for every bean with a live sync link, when `force` is false and the
bean's update timestamp is not newer than the link's synced-at timestamp,
`syncBean` returns action `"skipped"` and performs no remote call and no
store mutation of any kind (its event trace is empty). -/
theorem C1_fresh_link_skipped_no_calls (c : SyncCtx) (st : Store) (m : BeanMap) (b : Bean)
    (tid : String) (sa : Int)
    (hlink : storeGetTaskID st b.id = some tid)
    (hforce : c.opts.force = false)
    (hsa : storeGetSyncedAt st b.id = some sa)
    (hfresh : ∀ u, b.updatedAt = some u → u ≤ sa) :
    (syncBean c st m b).result.action = "skipped" ∧ (syncBean c st m b).events = [] := by
  have hns : needsSync st b = false := by
    unfold needsSync
    rw [hsa]
    cases hu : b.updatedAt with
    | none => rfl
    | some u =>
      have := hfresh u hu
      simp only [decide_eq_false_iff_not]
      omega
  unfold syncBean
  rw [hlink]
  simp [hforce, hns]

/-- Witness for C1 at a concrete linked, unchanged bean. -/
theorem C1_fresh_link_skipped_no_calls_witness :
    storeGetTaskID fixStore "b1" = some "t1" ∧ fixOpts.force = false ∧
    (syncBean fixCtx fixStore emptyBeanMap fixBean).result.action = "skipped" ∧
    (syncBean fixCtx fixStore emptyBeanMap fixBean).events = [] := by
  refine ⟨rfl, rfl, ?_, ?_⟩
  · exact (C1_fresh_link_skipped_no_calls fixCtx fixStore emptyBeanMap fixBean "t1" 200
      rfl rfl rfl (fun u hu => by injection hu with h; omega)).1
  · exact (C1_fresh_link_skipped_no_calls fixCtx fixStore emptyBeanMap fixBean "t1" 200
      rfl rfl rfl (fun u hu => by injection hu with h; omega)).2

/-! ## C10 -/

/-- C10: a bean with a live link and a recorded synced-at timestamp but no
update timestamp does not need sync (`needsSync` is false), so with
`force = false` `syncBean` returns action `"skipped"`. -/
theorem C10_no_update_timestamp_skipped (c : SyncCtx) (st : Store) (m : BeanMap) (b : Bean)
    (tid : String) (sa : Int)
    (hlink : storeGetTaskID st b.id = some tid)
    (hforce : c.opts.force = false)
    (hsa : storeGetSyncedAt st b.id = some sa)
    (hupd : b.updatedAt = none) :
    needsSync st b = false ∧ (syncBean c st m b).result.action = "skipped" := by
  have hns : needsSync st b = false := by
    unfold needsSync
    rw [hsa, hupd]
  refine ⟨hns, ?_⟩
  unfold syncBean
  rw [hlink]
  simp [hforce, hns]

/-- Witness for C10 at a concrete bean with no update timestamp. -/
theorem C10_no_update_timestamp_skipped_witness :
    fixBeanNoUpd.updatedAt = none ∧
    needsSync fixStore fixBeanNoUpd = false ∧
    (syncBean fixCtx fixStore emptyBeanMap fixBeanNoUpd).result.action = "skipped" := by
  refine ⟨rfl, ?_, ?_⟩
  · exact (C10_no_update_timestamp_skipped fixCtx fixStore emptyBeanMap fixBeanNoUpd
      "t1" 200 rfl rfl rfl rfl).1
  · exact (C10_no_update_timestamp_skipped fixCtx fixStore emptyBeanMap fixBeanNoUpd
      "t1" 200 rfl rfl rfl rfl).2

/-! ## C2 -/

/-- `intPtrEqual` is reflexive. -/
theorem intPtrEqual_refl (a : Option Int) : intPtrEqual a a = true := by
  cases a <;> simp [intPtrEqual]

/-- C2: `buildUpdateRequest` against a remote task whose current fields equal
the desired ones (name, description, priority, status, due date after
normalization — in particular a numeric-looking remote due string against the
desired epoch-milliseconds integer — and custom item type) produces an update
containing no fields. -/
theorem C2_buildUpdate_identity_empty (cfg : Option ClickUpConfig) (tz : Int)
    (current : TaskInfo) (b : Bean) (description : String) (priority : Option Int)
    (clickUpStatus : String)
    (hname : current.name = b.title)
    (hdesc : current.description = description)
    (hprio : priorityEqual current.priority priority = true)
    (hstatus : current.status.status = clickUpStatus)
    (hdue : clickUpDueToMillis current.dueDate = beanDueToMillis tz b.due)
    (hitem : intPtrEqual current.customItemID (getClickUpCustomItemID cfg b.btype) = true) :
    buildUpdateRequest cfg tz current b description priority clickUpStatus = emptyUpdate ∧
    (buildUpdateRequest cfg tz current b description priority clickUpStatus).hasChanges
      = false := by
  have hdue' : intPtrEqual (clickUpDueToMillis current.dueDate) (beanDueToMillis tz b.due)
      = true := by
    rw [hdue]; exact intPtrEqual_refl _
  have h1 : buildUpdateRequest cfg tz current b description priority clickUpStatus
      = emptyUpdate := by
    unfold buildUpdateRequest
    rw [hname, hdesc, hstatus]
    simp [hprio, hdue', hitem, emptyUpdate]
  exact ⟨h1, by rw [h1]; rfl⟩

/-- A remote task whose due date is the numeric-looking string for local
midnight of 2025-06-15 (UTC), name/status matching `fixBeanDue`. -/
def fixTaskDue : TaskInfo :=
  { id := "t9", name := "Bean due", description := "body text", status := ⟨"to do", ""⟩,
    url := "https://x/t9", parent := none, priority := none,
    dueDate := some "1749945600000", customFields := [], tags := [], customItemID := none }

/-- A bean whose desired due date is 2025-06-15. -/
def fixBeanDue : Bean :=
  { fixBean with id := "b9", title := "Bean due", due := some "2025-06-15" }

set_option maxRecDepth 40000 in
/-- Witness for C2: remote due date as a numeric string `"1749945600000"`
versus the bean's `2025-06-15` (local midnight in UTC = 1749945600000 ms)
produce an empty update. -/
theorem C2_buildUpdate_identity_empty_witness :
    clickUpDueToMillis fixTaskDue.dueDate
      = beanDueToMillis fixCtx.tz fixBeanDue.due ∧
    buildUpdateRequest fixCtx.cfg fixCtx.tz fixTaskDue fixBeanDue
      (buildTaskDescription fixBeanDue) none "to do" = emptyUpdate ∧
    (buildUpdateRequest fixCtx.cfg fixCtx.tz fixTaskDue fixBeanDue
      (buildTaskDescription fixBeanDue) none "to do").hasChanges = false := by
  have hdue : clickUpDueToMillis fixTaskDue.dueDate
      = beanDueToMillis fixCtx.tz fixBeanDue.due := by decide
  refine ⟨hdue, ?_, ?_⟩
  · exact (C2_buildUpdate_identity_empty fixCtx.cfg fixCtx.tz fixTaskDue fixBeanDue
      (buildTaskDescription fixBeanDue) none "to do" rfl rfl rfl rfl hdue rfl).1
  · exact (C2_buildUpdate_identity_empty fixCtx.cfg fixCtx.tz fixTaskDue fixBeanDue
      (buildTaskDescription fixBeanDue) none "to do" rfl rfl rfl rfl hdue rfl).2

/-! ## C3 -/

/-- C3: due-date normalization is idempotent and lossless —
`toLocalDateMillis` is the identity on instants that are already local
midnight, and round-tripping a "YYYY-MM-DD" date string through
`parseBeanDueDate`, `toLocalDateMillis` and back to a local date string
yields the original string. -/
theorem C3_due_normalization_idempotent_lossless (tz t k : Int) (s : String)
    (y : Int) (m d : Nat)
    (hmid : t = k * dayMs - tz)
    (hparse : parseDateString s = some (y, m, d)) :
    toLocalDateMillis tz t = t ∧
    ∃ u, parseBeanDueDate tz s = some u ∧ toLocalDateMillis tz u = u ∧
      formatLocalDate tz u = s := by
  obtain ⟨hrender, hvalid, -⟩ := renderDate_parseDateString s y m d hparse
  refine ⟨by rw [hmid]; exact toLocalDateMillis_fixed tz k,
    millisOfLocalCivil tz y m d, ?_, ?_, ?_⟩
  · unfold parseBeanDueDate
    rw [hparse]
    rfl
  · unfold millisOfLocalCivil
    exact toLocalDateMillis_fixed tz (daysFromCivil y m d - epochDays)
  · unfold formatLocalDate localCivilOfMillis millisOfLocalCivil
    have harg : ((daysFromCivil y m d - epochDays) * dayMs - tz + tz) / dayMs + epochDays
        = daysFromCivil y m d := by
      have h1 : (daysFromCivil y m d - epochDays) * dayMs - tz + tz
          = (daysFromCivil y m d - epochDays) * dayMs := by ring
      rw [h1, Int.mul_ediv_cancel _ (by unfold dayMs; omega)]
      ring
    rw [harg, civilFromDays_daysFromCivil y m d hvalid]
    exact hrender

set_option maxRecDepth 40000 in
/-- Witness for C3 in a UTC-5 zone (offset −18000000 ms): the instant of
local midnight 2025-06-15 is a fixed point of `toLocalDateMillis`, and
"2025-06-15" round-trips. -/
theorem C3_due_normalization_idempotent_lossless_witness :
    parseDateString "2025-06-15" = some (2025, 6, 15) ∧
    toLocalDateMillis (-18000000) (20254 * dayMs + 18000000)
      = 20254 * dayMs + 18000000 ∧
    ∃ u, parseBeanDueDate (-18000000) "2025-06-15" = some u ∧
      toLocalDateMillis (-18000000) u = u ∧
      formatLocalDate (-18000000) u = "2025-06-15" := by
  have hparse : parseDateString "2025-06-15" = some (2025, 6, 15) := by decide
  have h := C3_due_normalization_idempotent_lossless (-18000000)
    (20254 * dayMs + 18000000) 20254 "2025-06-15" 2025 6 15 (by unfold dayMs; ring) hparse
  exact ⟨hparse, h.1, h.2⟩

/-! ## C4 -/

/-- Names of the tags the trace attempts to add. -/
def tagAddNames (evs : List Event) : List String :=
  evs.filterMap fun e =>
    match e with
    | .call (.addTag _ t) => some t
    | _ => none

/-- Names of the tags the trace attempts to remove. -/
def tagRemoveNames (evs : List Event) : List String :=
  evs.filterMap fun e =>
    match e with
    | .call (.removeTag _ t) => some t
    | _ => none

theorem tagAddNames_append (a b : List Event) :
    tagAddNames (a ++ b) = tagAddNames a ++ tagAddNames b := by
  unfold tagAddNames
  rw [List.filterMap_append]

theorem tagRemoveNames_append (a b : List Event) :
    tagRemoveNames (a ++ b) = tagRemoveNames a ++ tagRemoveNames b := by
  unfold tagRemoveNames
  rw [List.filterMap_append]

theorem tagAddNames_ensure (sp t : String) :
    tagAddNames (if sp ≠ "" then [Event.call (RemoteCall.ensureSpaceTag sp t)] else [])
      = [] := by
  by_cases hsp : sp = "" <;> simp [hsp, tagAddNames]

theorem tagRemoveNames_ensure (sp t : String) :
    tagRemoveNames (if sp ≠ "" then [Event.call (RemoteCall.ensureSpaceTag sp t)] else [])
      = [] := by
  by_cases hsp : sp = "" <;> simp [hsp, tagRemoveNames]

theorem tagAddNames_cons_addTag (tid t : String) (evs : List Event) :
    tagAddNames (Event.call (RemoteCall.addTag tid t) :: evs) = t :: tagAddNames evs := rfl

theorem tagRemoveNames_cons_addTag (tid t : String) (evs : List Event) :
    tagRemoveNames (Event.call (RemoteCall.addTag tid t) :: evs) = tagRemoveNames evs := rfl

theorem tagRemoveNames_cons_removeTag (tid t : String) (evs : List Event) :
    tagRemoveNames (Event.call (RemoteCall.removeTag tid t) :: evs)
      = t :: tagRemoveNames evs := rfl

theorem tagAddNames_cons_removeTag (tid t : String) (evs : List Event) :
    tagAddNames (Event.call (RemoteCall.removeTag tid t) :: evs) = tagAddNames evs := rfl

theorem syncTagsAdds_cons_mem (env : Env) (sp tid : String) (cur : List String)
    (t : String) (rest : List String) (h : cur.contains t = true) :
    syncTagsAdds env sp tid cur (t :: rest) = syncTagsAdds env sp tid cur rest := by
  simp only [syncTagsAdds]
  rw [if_pos (by simpa using h)]

theorem syncTagsAdds_cons_new (env : Env) (sp tid : String) (cur : List String)
    (t : String) (rest : List String) (h : cur.contains t = false) :
    (syncTagsAdds env sp tid cur (t :: rest)).2
      = (if sp ≠ "" then [Event.call (RemoteCall.ensureSpaceTag sp t)] else [])
        ++ Event.call (RemoteCall.addTag tid t) :: (syncTagsAdds env sp tid cur rest).2 := by
  simp only [syncTagsAdds]
  rw [if_neg (by simpa using h)]
  simp

theorem syncTagsRemoves_cons_mem (env : Env) (tid : String) (des : List String)
    (t : String) (rest : List String) (h : des.contains t = true) :
    syncTagsRemoves env tid des (t :: rest) = syncTagsRemoves env tid des rest := by
  simp only [syncTagsRemoves]
  rw [if_pos (by simpa using h)]

theorem syncTagsRemoves_cons_extra (env : Env) (tid : String) (des : List String)
    (t : String) (rest : List String) (h : des.contains t = false) :
    (syncTagsRemoves env tid des (t :: rest)).2
      = Event.call (RemoteCall.removeTag tid t) :: (syncTagsRemoves env tid des rest).2 := by
  simp only [syncTagsRemoves]
  rw [if_neg (by simpa using h)]

theorem tagAddNames_adds (env : Env) (sp tid : String) (cur : List String)
    (ts : List String) :
    tagAddNames (syncTagsAdds env sp tid cur ts).2
      = ts.filter fun t => ! cur.contains t := by
  induction ts with
  | nil => rfl
  | cons t rest ih =>
    rw [List.filter_cons]
    by_cases hc : cur.contains t = true
    · rw [syncTagsAdds_cons_mem env sp tid cur t rest hc, ih]
      have hm : t ∈ cur := by simpa using hc
      simp [hm]
    · have hc' : cur.contains t = false := by
        revert hc; cases cur.contains t <;> simp
      rw [syncTagsAdds_cons_new env sp tid cur t rest hc', tagAddNames_append,
        tagAddNames_ensure, tagAddNames_cons_addTag, ih]
      have hm : t ∉ cur := by simpa using hc'
      simp [hm]

theorem tagRemoveNames_adds (env : Env) (sp tid : String) (cur : List String)
    (ts : List String) :
    tagRemoveNames (syncTagsAdds env sp tid cur ts).2 = [] := by
  induction ts with
  | nil => rfl
  | cons t rest ih =>
    by_cases hc : cur.contains t = true
    · rw [syncTagsAdds_cons_mem env sp tid cur t rest hc, ih]
    · have hc' : cur.contains t = false := by
        revert hc; cases cur.contains t <;> simp
      rw [syncTagsAdds_cons_new env sp tid cur t rest hc', tagRemoveNames_append,
        tagRemoveNames_ensure, tagRemoveNames_cons_addTag, ih]
      rfl

theorem tagRemoveNames_removes (env : Env) (tid : String) (des : List String)
    (cs : List String) :
    tagRemoveNames (syncTagsRemoves env tid des cs).2
      = cs.filter fun t => ! des.contains t := by
  induction cs with
  | nil => rfl
  | cons t rest ih =>
    rw [List.filter_cons]
    by_cases hc : des.contains t = true
    · rw [syncTagsRemoves_cons_mem env tid des t rest hc, ih]
      have hm : t ∈ des := by simpa using hc
      simp [hm]
    · have hc' : des.contains t = false := by
        revert hc; cases des.contains t <;> simp
      rw [syncTagsRemoves_cons_extra env tid des t rest hc',
        tagRemoveNames_cons_removeTag, ih]
      have hm : t ∉ des := by simpa using hc'
      simp [hm]

theorem tagAddNames_removes (env : Env) (tid : String) (des : List String)
    (cs : List String) :
    tagAddNames (syncTagsRemoves env tid des cs).2 = [] := by
  induction cs with
  | nil => rfl
  | cons t rest ih =>
    by_cases hc : des.contains t = true
    · rw [syncTagsRemoves_cons_mem env tid des t rest hc, ih]
    · have hc' : des.contains t = false := by
        revert hc; cases des.contains t <;> simp
      rw [syncTagsRemoves_cons_extra env tid des t rest hc',
        tagAddNames_cons_removeTag, ih]

/-- The add calls of `syncTags` are exactly desired-minus-current. -/
theorem syncTags_adds_eq (env : Env) (sp tid : String) (b : Bean) (cur : List Tag) :
    tagAddNames (syncTags env sp tid b cur).2
      = b.tags.filter fun t => ! (cur.map Tag.name).contains t := by
  unfold syncTags
  rw [tagAddNames_append, tagAddNames_adds, tagAddNames_removes, List.append_nil]

/-- The remove calls of `syncTags` are exactly current-minus-desired. -/
theorem syncTags_removes_eq (env : Env) (sp tid : String) (b : Bean) (cur : List Tag) :
    tagRemoveNames (syncTags env sp tid b cur).2
      = (cur.map Tag.name).filter fun t => ! b.tags.contains t := by
  unfold syncTags
  rw [tagRemoveNames_append, tagRemoveNames_adds, tagRemoveNames_removes,
    List.nil_append]

/-- C4: the tag diff is the symmetric set difference — `syncTags` attempts to
add exactly desired-minus-current and remove exactly current-minus-desired,
the two sets never overlap, both are duplicate-free for duplicate-free
inputs, the result is order-independent (permuting either input permutes the
attempted calls), and swapping desired and current swaps adds and removes. -/
theorem C4_tag_diff_symmetric (env env' : Env) (sp sp' tid tid' : String)
    (b b' bSwap : Bean) (cur cur' curSwap : List Tag)
    (hnd : b.tags.Nodup) (hnc : (cur.map Tag.name).Nodup)
    (hpd : b'.tags.Perm b.tags) (hpc : (cur'.map Tag.name).Perm (cur.map Tag.name))
    (hswapd : bSwap.tags = cur.map Tag.name) (hswapc : curSwap.map Tag.name = b.tags) :
    (∀ x, x ∈ tagAddNames (syncTags env sp tid b cur).2 ↔
        x ∈ b.tags ∧ x ∉ cur.map Tag.name) ∧
    (∀ x, x ∈ tagRemoveNames (syncTags env sp tid b cur).2 ↔
        x ∈ cur.map Tag.name ∧ x ∉ b.tags) ∧
    (∀ x, ¬ (x ∈ tagAddNames (syncTags env sp tid b cur).2 ∧
        x ∈ tagRemoveNames (syncTags env sp tid b cur).2)) ∧
    (tagAddNames (syncTags env sp tid b cur).2).Nodup ∧
    (tagRemoveNames (syncTags env sp tid b cur).2).Nodup ∧
    (tagAddNames (syncTags env' sp' tid' b' cur').2).Perm
      (tagAddNames (syncTags env sp tid b cur).2) ∧
    (tagRemoveNames (syncTags env' sp' tid' b' cur').2).Perm
      (tagRemoveNames (syncTags env sp tid b cur).2) ∧
    tagAddNames (syncTags env sp tid bSwap curSwap).2
      = tagRemoveNames (syncTags env sp tid b cur).2 ∧
    tagRemoveNames (syncTags env sp tid bSwap curSwap).2
      = tagAddNames (syncTags env sp tid b cur).2 := by
  have hadds := syncTags_adds_eq env sp tid b cur
  have hrem := syncTags_removes_eq env sp tid b cur
  refine ⟨?_, ?_, ?_, ?_, ?_, ?_, ?_, ?_, ?_⟩
  · intro x
    rw [hadds]
    simp [List.mem_filter]
  · intro x
    rw [hrem]
    simp [List.mem_filter]
  · intro x ⟨hx1, hx2⟩
    rw [hadds] at hx1
    rw [hrem] at hx2
    simp [List.mem_filter] at hx1 hx2
    exact hx2.2 hx1.1
  · rw [hadds]; exact hnd.filter _
  · rw [hrem]; exact hnc.filter _
  · rw [syncTags_adds_eq, hadds]
    have hcong : ∀ t ∈ b'.tags,
        (! (cur'.map Tag.name).contains t) = (! (cur.map Tag.name).contains t) := by
      intro t _
      by_cases hmem : t ∈ cur.map Tag.name
      · have h1 : (cur.map Tag.name).contains t = true := List.elem_eq_true_of_mem hmem
        have h2 : (cur'.map Tag.name).contains t = true :=
          List.elem_eq_true_of_mem (hpc.mem_iff.mpr hmem)
        rw [h1, h2]
      · have hmem' : t ∉ cur'.map Tag.name := fun hh => hmem (hpc.mem_iff.mp hh)
        have h1 : (cur.map Tag.name).contains t = false := by simp [hmem]
        have h2 : (cur'.map Tag.name).contains t = false := by simp [hmem']
        rw [h1, h2]
    rw [List.filter_congr hcong]
    exact hpd.filter _
  · rw [syncTags_removes_eq, hrem]
    have hcong : ∀ t ∈ cur'.map Tag.name,
        (! b'.tags.contains t) = (! b.tags.contains t) := by
      intro t _
      by_cases hmem : t ∈ b.tags
      · have h1 : b.tags.contains t = true := List.elem_eq_true_of_mem hmem
        have h2 : b'.tags.contains t = true :=
          List.elem_eq_true_of_mem (hpd.mem_iff.mpr hmem)
        rw [h1, h2]
      · have hmem' : t ∉ b'.tags := fun hh => hmem (hpd.mem_iff.mp hh)
        have h1 : b.tags.contains t = false := by simp [hmem]
        have h2 : b'.tags.contains t = false := by simp [hmem']
        rw [h1, h2]
    rw [List.filter_congr hcong]
    exact hpc.filter _
  · rw [syncTags_adds_eq, hrem, hswapd, hswapc]
  · rw [syncTags_removes_eq, hadds, hswapd, hswapc]

/-- Remote tags `{keep, old}`. -/
def fixCur : List Tag := [⟨"keep"⟩, ⟨"old"⟩]

/-- A bean with tags `{keep, new}`. -/
def fixBeanTags : Bean := { fixBean with id := "bt", tags := ["keep", "new"] }

/-- The same bean with tags permuted. -/
def fixBeanTagsPerm : Bean := { fixBeanTags with tags := ["new", "keep"] }

/-- The remote tags permuted. -/
def fixCurPerm : List Tag := [⟨"old"⟩, ⟨"keep"⟩]

/-- A bean whose tags are the remote tag set (for the swap property). -/
def fixBeanSwap : Bean := { fixBeanTags with tags := ["keep", "old"] }

/-- Remote tags equal to the bean tag set (for the swap property). -/
def fixCurSwap : List Tag := [⟨"keep"⟩, ⟨"new"⟩]

/-- Witness for C4: tags `{keep, new}` against remote `{keep, old}` add
exactly `new` and remove exactly `old`, and swapping the sets swaps the
calls. -/
theorem C4_tag_diff_symmetric_witness :
    fixBeanTags.tags.Nodup ∧ (fixCur.map Tag.name).Nodup ∧
    fixBeanTagsPerm.tags.Perm fixBeanTags.tags ∧
    (fixCurPerm.map Tag.name).Perm (fixCur.map Tag.name) ∧
    tagAddNames (syncTags fixEnv "" "t1" fixBeanTags fixCur).2 = ["new"] ∧
    tagRemoveNames (syncTags fixEnv "" "t1" fixBeanTags fixCur).2 = ["old"] ∧
    tagAddNames (syncTags fixEnv "" "t1" fixBeanSwap fixCurSwap).2
      = tagRemoveNames (syncTags fixEnv "" "t1" fixBeanTags fixCur).2 := by
  refine ⟨by decide, by decide, by decide, by decide, by decide, by decide, ?_⟩
  exact (C4_tag_diff_symmetric fixEnv fixEnv "" "" "t1" "t1" fixBeanTags fixBeanTagsPerm
    fixBeanSwap fixCur fixCurPerm fixCurSwap (by decide) (by decide) (by decide)
    (by decide) rfl rfl).2.2.2.2.2.2.2.1

/-! ## C6 -/

/-- The "task was deleted" check of `syncBean`. -/
def isNotFoundErr (e : String) : Bool :=
  goContains e "Task not found" || goContains e "ITEM_013"
/-- Is the event a create-task call? -/
def isCreateCall : Event → Bool
  | .call (.createTask _ _) => true
  | _ => false
/-- Is the event a store mutation? -/
def isStoreEvent : Event → Bool
  | .store _ => true
  | _ => false

/-- C6: for a linked bean whose remote fetch fails, if the error is
"Task not found"/ITEM_013 the link is cleared before any create call, a new
task is created, a new link with the current time as synced-at is recorded,
and the action is "created"; any other fetch failure yields action "error"
with no creation and no store mutation. -/
theorem C6_remote_not_found_unlink_recreate (c : SyncCtx) (st : Store) (m : BeanMap) (b : Bean)
    (tid e : String) (task : TaskInfo)
    (hlink : storeGetTaskID st b.id = some tid)
    (hforce : c.opts.force = true)
    (hdry : c.opts.dryRun = false)
    (hfetch : c.env.getTask tid = .error e)
    (hcreate : c.env.createTask c.opts.listID
        (buildCreateRequest c m b (buildTaskDescription b) (getClickUpStatus c.cfg b.status)
          (getClickUpPriority c.cfg b.priority)) = .ok task) :
    (isNotFoundErr e = true →
      (syncBean c st m b).result.action = "created" ∧
      (syncBean c st m b).store b.id = some ⟨task.id, some c.env.now⟩ ∧
      ∃ l2, (syncBean c st m b).events
          = Event.call (.getTask tid) :: Event.store (.clear b.id) :: l2 ∧
        (∃ ev ∈ l2, isCreateCall ev = true)) ∧
    (isNotFoundErr e = false →
      (syncBean c st m b).result.action = "error" ∧
      (∀ ev ∈ (syncBean c st m b).events, isCreateCall ev = false) ∧
      (∀ ev ∈ (syncBean c st m b).events, isStoreEvent ev = false) ∧
      (syncBean c st m b).store b.id = st b.id) := by
  unfold syncBean
  rw [hlink]
  simp only [hforce, hfetch, not_true, false_and, if_false]
  constructor
  · intro hnf
    have hnf' : (goContains e "Task not found" || goContains e "ITEM_013") = true := hnf
    rw [hnf']
    simp only [if_true]
    unfold createFlow
    simp only [hdry, Bool.false_eq_true, if_false]
    rw [hcreate]
    refine ⟨rfl, ?_, ?_⟩
    · simp [storeSetSyncedAt, storeSetTaskID]
    · refine ⟨Event.call (RemoteCall.createTask c.opts.listID (buildCreateRequest c m b
          (buildTaskDescription b) (getClickUpStatus c.cfg b.status)
          (getClickUpPriority c.cfg b.priority)))
        :: (syncTags c.env c.spaceID task.id b []).2
        ++ [Event.store (StoreOp.setTaskID b.id task.id),
            Event.store (StoreOp.setSyncedAt b.id c.env.now)], ?_, ?_⟩
      · rfl
      · exact ⟨Event.call (RemoteCall.createTask c.opts.listID (buildCreateRequest c m b
            (buildTaskDescription b) (getClickUpStatus c.cfg b.status)
            (getClickUpPriority c.cfg b.priority))), List.mem_cons_self _ _, rfl⟩
  · intro hnf
    have hnf' : (goContains e "Task not found" || goContains e "ITEM_013") = false := hnf
    rw [hnf']
    simp only [Bool.false_eq_true, if_false]
    refine ⟨by simp, ?_, ?_, by simp⟩
    · intro ev hev
      simp at hev
      subst hev
      rfl
    · intro ev hev
      simp at hev
      subst hev
      rfl


/-- A context that fetches "Task not found" for every task (forced run). -/
def fixCtxNF : SyncCtx :=
  { fixCtx with
      opts := { fixOpts with force := true }
      env := { fixEnv with getTask := fun _ => .error "Task not found" } }

/-- A context whose task fetch fails for an unrelated reason (forced run). -/
def fixCtxBadFetch : SyncCtx :=
  { fixCtx with
      opts := { fixOpts with force := true }
      env := { fixEnv with getTask := fun _ => .error "internal error" } }

/-- Witness for C6: a linked bean whose task was deleted remotely gets
unlinked and recreated; an unrelated fetch failure reports an error. -/
theorem C6_remote_not_found_unlink_recreate_witness :
    isNotFoundErr "Task not found" = true ∧
    ((syncBean fixCtxNF fixStore emptyBeanMap fixBean).result.action = "created" ∧
      (syncBean fixCtxNF fixStore emptyBeanMap fixBean).store fixBean.id
        = some ⟨(sampleTask "task-Bean one").id, some fixCtxNF.env.now⟩ ∧
      ∃ l2, (syncBean fixCtxNF fixStore emptyBeanMap fixBean).events
          = Event.call (.getTask "t1") :: Event.store (.clear fixBean.id) :: l2 ∧
        (∃ ev ∈ l2, isCreateCall ev = true)) ∧
    (syncBean fixCtxBadFetch fixStore emptyBeanMap fixBean).result.action = "error" := by
  refine ⟨by decide, ?_, ?_⟩
  · exact (C6_remote_not_found_unlink_recreate fixCtxNF fixStore emptyBeanMap fixBean
      "t1" "Task not found" (sampleTask "task-Bean one") rfl rfl rfl (by rfl) (by rfl)).1
      (by decide)
  · exact ((C6_remote_not_found_unlink_recreate fixCtxBadFetch fixStore emptyBeanMap fixBean
      "t1" "internal error" (sampleTask "task-Bean one") rfl rfl rfl (by rfl) (by rfl)).2
      (by decide)).1

/-! ## C7 -/

theorem retryGo_attempts_le {A : Type} (call : Nat → Except ApiFailure A) (base : Nat)
    (jitter : Nat → Nat) :
    ∀ r i, (retryGo call base jitter r i).attempts ≤ max 1 r := by
  intro r
  induction r with
  | zero => intro i; simp [retryGo]
  | succ r ih =>
    intro i
    simp only [retryGo]
    cases hcall : call i with
    | ok a => simp
    | error f =>
      dsimp only
      by_cases hc : isRetryable f = true ∧ 0 < r
      · rw [if_pos hc]
        have := ih (i + 1)
        simp only
        omega
      · rw [if_neg hc]
        simp

theorem retryGo_delays_le {A : Type} (call : Nat → Except ApiFailure A) (base : Nat)
    (jitter : Nat → Nat) :
    ∀ r i, ∀ d ∈ (retryGo call base jitter r i).delays, d ≤ 30000 := by
  intro r
  induction r with
  | zero => intro i d hd; simp [retryGo] at hd
  | succ r ih =>
    intro i d hd
    simp only [retryGo] at hd
    cases hcall : call i with
    | ok a => rw [hcall] at hd; simp at hd
    | error f =>
      rw [hcall] at hd
      dsimp only at hd
      by_cases hc : isRetryable f = true ∧ 0 < r
      · rw [if_pos hc] at hd
        simp only [List.mem_cons] at hd
        rcases hd with hd | hd
        · rw [hd]; exact Nat.min_le_right _ _
        · exact ih (i + 1) d hd
      · rw [if_neg hc] at hd
        simp at hd

theorem retryGo_nonretryable {A : Type} (call : Nat → Except ApiFailure A) (base : Nat)
    (jitter : Nat → Nat) (i : Nat) (f : ApiFailure)
    (hcall : call i = .error f) (hnr : isRetryable f = false) :
    ∀ r, (retryGo call base jitter r i).result = .error f ∧
      (retryGo call base jitter r i).attempts = 1 := by
  intro r
  cases r with
  | zero => simp [retryGo, hcall]
  | succ r =>
    simp only [retryGo, hcall]
    rw [if_neg (by simp [hnr])]
    exact ⟨rfl, rfl⟩

theorem retryGo_retryable_only {A : Type} (call : Nat → Except ApiFailure A) (base : Nat)
    (jitter : Nat → Nat) :
    ∀ r i j, j + 1 < (retryGo call base jitter r i).attempts →
      ∃ f, call (i + j) = .error f ∧ isRetryable f = true := by
  intro r
  induction r with
  | zero => intro i j h; simp [retryGo] at h
  | succ r ih =>
    intro i j h
    simp only [retryGo] at h
    cases hcall : call i with
    | ok a => rw [hcall] at h; simp at h
    | error f =>
      rw [hcall] at h
      dsimp only at h
      by_cases hc : isRetryable f = true ∧ 0 < r
      · rw [if_pos hc] at h
        simp only at h
        cases j with
        | zero => exact ⟨f, by rw [Nat.add_zero]; exact hcall, hc.1⟩
        | succ j' =>
          have hj : j' + 1 < (retryGo call base jitter r (i + 1)).attempts := by omega
          have := ih (i + 1) j' hj
          have harith : i + 1 + j' = i + (j' + 1) := by omega
          rwa [harith] at this
      · rw [if_neg hc] at h
        simp at h

theorem retryGo_exhaust {A : Type} (call : Nat → Except ApiFailure A) (base : Nat)
    (jitter : Nat → Nat) (fs : Nat → ApiFailure) :
    ∀ r i, 1 ≤ r →
      (∀ k, k < r → call (i + k) = .error (fs (i + k)) ∧ isRetryable (fs (i + k)) = true) →
      (retryGo call base jitter r i).result = .error (fs (i + (r - 1))) ∧
      (retryGo call base jitter r i).attempts = r := by
  intro r
  induction r with
  | zero => intro i h; omega
  | succ r ih =>
    intro i _ hall
    have hi0 := hall 0 (by omega)
    rw [Nat.add_zero] at hi0
    simp only [retryGo, hi0.1]
    by_cases hr : 1 ≤ r
    · rw [if_pos ⟨hi0.2, by omega⟩]
      have hrec := ih (i + 1) hr (fun k hk => by
        have := hall (k + 1) (by omega)
        have harith : i + (k + 1) = i + 1 + k := by omega
        rwa [harith] at this)
      have harith : i + 1 + (r - 1) = i + (r + 1 - 1) := by omega
      rw [harith] at hrec
      simp only
      exact ⟨hrec.1, by rw [hrec.2]⟩
    · have hr0 : r = 0 := by omega
      subst hr0
      rw [if_neg (by simp)]
      exact ⟨by simp, rfl⟩

/-- C7 (modelled from the spec, the retry client is not in the provided
sources): the Resilient API Client retries exactly on classified-retryable
failures — a non-retryable first failure is returned after a single attempt,
every attempt after the first follows a retryable failure — the attempt
count never exceeds 5, every single backoff delay is capped at 30 seconds,
and exhausting all 5 attempts surfaces the last error. -/
theorem C7_retry_policy {A : Type} (call : Nat → Except ApiFailure A) (base : Nat)
    (jitter : Nat → Nat) :
    (∀ f, call 0 = .error f → isRetryable f = false →
      (runWithRetry call base jitter).result = .error f ∧
      (runWithRetry call base jitter).attempts = 1) ∧
    (runWithRetry call base jitter).attempts ≤ 5 ∧
    (∀ d ∈ (runWithRetry call base jitter).delays, d ≤ 30000) ∧
    (∀ j, j + 1 < (runWithRetry call base jitter).attempts →
      ∃ f, call j = .error f ∧ isRetryable f = true) ∧
    (∀ fs : Nat → ApiFailure,
      (∀ k, k < 5 → call k = .error (fs k) ∧ isRetryable (fs k) = true) →
      (runWithRetry call base jitter).result = .error (fs 4) ∧
      (runWithRetry call base jitter).attempts = 5) := by
  refine ⟨?_, ?_, ?_, ?_, ?_⟩
  · intro f hcall hnr
    exact retryGo_nonretryable call base jitter 0 f hcall hnr 5
  · have := retryGo_attempts_le call base jitter 5 0
    simpa [runWithRetry] using this
  · exact retryGo_delays_le call base jitter 5 0
  · intro j hj
    have := retryGo_retryable_only call base jitter 5 0 j hj
    simpa using this
  · intro fs hall
    have := retryGo_exhaust call base jitter fs 5 0 (by omega) (fun k hk => by
      have := hall k hk
      simpa using this)
    simpa using this

/-- Witness for C7: a call that always fails with HTTP 500 is retried to
exactly 5 attempts; a call that fails with HTTP 404 is never retried. -/
theorem C7_retry_policy_witness :
    (runWithRetry (fun _ => (.error ⟨500, false, false⟩ : Except ApiFailure Nat))
      1000 (fun _ => 7)).attempts = 5 ∧
    (runWithRetry (fun _ => (.error ⟨404, false, false⟩ : Except ApiFailure Nat))
      1000 (fun _ => 7)).attempts = 1 := by
  constructor
  · exact ((C7_retry_policy (fun _ => .error ⟨500, false, false⟩) 1000 (fun _ => 7)).2.2.2.2
      (fun _ => ⟨500, false, false⟩) (fun k _ => ⟨rfl, rfl⟩)).2
  · exact ((C7_retry_policy (fun _ => .error ⟨404, false, false⟩) 1000 (fun _ => 7)).1
      ⟨404, false, false⟩ rfl rfl).2

/-! ## C8 -/

/-- The last pending op recorded for a bean id. -/
def lastFor : List PendingOp → String → Option PendingOp
  | [], _ => none
  | o :: rest, bid =>
    match lastFor rest bid with
    | some r => some r
    | none => if o.beanID == bid then some o else none

theorem lastFor_eq_none_iff (l : List PendingOp) (bid : String) :
    lastFor l bid = none ↔ ∀ o ∈ l, (o.beanID == bid) = false := by
  induction l with
  | nil => simp [lastFor]
  | cons o rest ih =>
    simp only [lastFor]
    cases hr : lastFor rest bid with
    | some r =>
      simp only
      constructor
      · intro h; exact absurd h (by simp)
      · intro h
        have : lastFor rest bid = none := ih.mpr fun o' ho' => h o' (by simp [ho'])
        rw [hr] at this
        exact absurd this (by simp)
    | none =>
      simp only
      constructor
      · intro h
        intro o' ho'
        simp only [List.mem_cons] at ho'
        rcases ho' with ho' | ho'
        · subst ho'
          by_cases hb : (o'.beanID == bid) = true
          · rw [if_pos hb] at h; exact absurd h (by simp)
          · revert hb; cases o'.beanID == bid <;> simp
        · exact ih.mp hr o' ho'
      · intro h
        rw [if_neg ?_]
        have := h o (by simp)
        simp [this]

theorem lastFor_mem (l : List PendingOp) (bid : String) (op : PendingOp)
    (h : lastFor l bid = some op) : op ∈ l ∧ (op.beanID == bid) = true := by
  induction l with
  | nil => simp [lastFor] at h
  | cons o rest ih =>
    simp only [lastFor] at h
    cases hr : lastFor rest bid with
    | some r =>
      rw [hr] at h
      simp only [Option.some.injEq] at h
      subst h
      have := ih hr
      exact ⟨by simp [this.1], this.2⟩
    | none =>
      rw [hr] at h
      by_cases hb : (o.beanID == bid) = true
      · rw [if_pos hb] at h
        simp only [Option.some.injEq] at h
        subst h
        exact ⟨by simp, hb⟩
      · rw [if_neg hb] at h
        exact absurd h (by simp)

theorem dedupLast_subset (l : List PendingOp) (op : PendingOp)
    (h : op ∈ dedupLast l) : op ∈ l := by
  induction l with
  | nil => simp [dedupLast] at h
  | cons o rest ih =>
    simp only [dedupLast] at h
    by_cases ha : rest.any (fun o' => o'.beanID == o.beanID) = true
    · rw [if_pos ha] at h
      exact List.mem_cons_of_mem o (ih h)
    · rw [if_neg ha] at h
      simp only [List.mem_cons] at h
      rcases h with h | h
      · simp [h]
      · exact List.mem_cons_of_mem o (ih h)

theorem mem_dedupLast_iff (l : List PendingOp) (op : PendingOp) :
    op ∈ dedupLast l ↔ lastFor l op.beanID = some op := by
  induction l with
  | nil => simp [dedupLast, lastFor]
  | cons o rest ih =>
    simp only [dedupLast, lastFor]
    by_cases ha : rest.any (fun o' => o'.beanID == o.beanID) = true
    · rw [if_pos ha]
      cases hr : lastFor rest op.beanID with
      | some r =>
        rw [ih]
        rw [hr]
      | none =>
        simp only
        have hne : (o.beanID == op.beanID) = false := by
          by_contra hcon
          have hbeq : (o.beanID == op.beanID) = true := by
            revert hcon; cases o.beanID == op.beanID <;> simp
          have heqid : o.beanID = op.beanID := by
            exact eq_of_beq hbeq
          obtain ⟨o', ho', hbeq'⟩ := List.any_eq_true.mp ha
          have : lastFor rest op.beanID = none := hr
          rw [lastFor_eq_none_iff] at this
          have := this o' ho'
          rw [← heqid] at this
          rw [this] at hbeq'
          exact absurd hbeq' (by simp)
        rw [if_neg (by simp [hne])]
        rw [ih, hr]
    · rw [if_neg ha]
      have hall : ∀ o' ∈ rest, (o'.beanID == o.beanID) = false := by
        intro o' ho'
        by_contra hcon
        exact ha (List.any_eq_true.mpr ⟨o', ho', by
          revert hcon; cases o'.beanID == o.beanID <;> simp⟩)
      simp only [List.mem_cons]
      cases hr : lastFor rest op.beanID with
      | some r =>
        simp only
        constructor
        · intro h
          rcases h with h | h
          · subst h
            have := (lastFor_mem rest op.beanID r hr).1
            have h2 := (lastFor_mem rest op.beanID r hr).2
            have h3 := hall r this
            have : op.beanID = op.beanID := rfl
            rw [eq_of_beq h2] at h3
            simp at h3
          · rw [ih] at h
            rw [hr] at h
            exact h
        · intro h
          right
          rw [ih, hr]
          exact h
      | none =>
        simp only
        constructor
        · intro h
          rcases h with h | h
          · subst h
            rw [if_pos (by simp)]
          · rw [ih, hr] at h
            exact absurd h (by simp)
        · intro h
          by_cases hb : (o.beanID == op.beanID) = true
          · rw [if_pos hb] at h
            simp only [Option.some.injEq] at h
            left
            exact h.symm
          · rw [if_neg hb] at h
            exact absurd h (by simp)

theorem dedupLast_keys_nodup (l : List PendingOp) :
    ((dedupLast l).map (fun o => o.beanID)).Nodup := by
  induction l with
  | nil => simp [dedupLast]
  | cons o rest ih =>
    simp only [dedupLast]
    by_cases ha : rest.any (fun o' => o'.beanID == o.beanID) = true
    · rw [if_pos ha]; exact ih
    · rw [if_neg ha]
      have hall : ∀ o' ∈ rest, (o'.beanID == o.beanID) = false := by
        intro o' ho'
        by_contra hcon
        exact ha (List.any_eq_true.mpr ⟨o', ho', by
          revert hcon; cases o'.beanID == o.beanID <;> simp⟩)
      simp only [List.map_cons, List.nodup_cons]
      refine ⟨?_, ih⟩
      intro hmem
      simp only [List.mem_map] at hmem
      obtain ⟨o', ho', heq⟩ := hmem
      have := hall o' (dedupLast_subset rest o' ho')
      rw [heq] at this
      simp at this

/-- Does the bean's final pending operation set the link data? -/
def finalSetFor (ops : List PendingOp) (bid : String) : Bool :=
  match lastFor ops bid with
  | some op => op.set.isSome
  | none => false

/-- Is the bean's final pending operation a removal? -/
def finalRemoveFor (ops : List PendingOp) (bid : String) : Bool :=
  match lastFor ops bid with
  | some op => op.set.isNone
  | none => false

/-- Is the flush call the batched set call? -/
def isBatchCall : FlushCall → Bool
  | .batch _ => true
  | _ => false

/-- The bean id of a remove call. -/
def removeBidOf : FlushCall → Option String
  | .remove bid => some bid
  | _ => none

theorem runRemoves_ok (env : FlushEnv) (hrem : ∀ s, env.removeOne s = .ok ()) :
    ∀ ids, runRemoves env ids = (.ok (), ids.map FlushCall.remove) := by
  intro ids
  induction ids with
  | nil => rfl
  | cons bid rest ih => simp [runRemoves, hrem, ih]

/-- The final set ops that `Flush` batches. -/
def flushSetOps (ops : List PendingOp) : List ExtensionDataOp :=
  (dedupLast ops).filterMap (fun o => o.set)

/-- The bean ids that `Flush` removes individually. -/
def flushRemoveIDs (ops : List PendingOp) : List String :=
  ((dedupLast ops).filter (fun o => o.set.isNone)).map (fun o => o.beanID)

theorem extFlush_ok (env : FlushEnv) (p : PState)
    (hbatch : ∀ l, env.setBatch l = .ok ()) (hrem : ∀ s, env.removeOne s = .ok ())
    (hne : p.ops ≠ []) :
    extFlush env p = (.ok (),
      (if (flushSetOps p.ops).isEmpty then [] else [FlushCall.batch (flushSetOps p.ops)])
        ++ (flushRemoveIDs p.ops).map FlushCall.remove,
      { p with ops := [] }) := by
  unfold extFlush
  rw [if_neg (by simpa using hne)]
  by_cases hs : (flushSetOps p.ops).isEmpty = true
  · rw [if_pos (by simpa [flushSetOps] using hs)]
    rw [runRemoves_ok env hrem]
    simp [hs, flushRemoveIDs]
  · rw [if_neg (by simpa [flushSetOps] using hs)]
    rw [hbatch]
    rw [runRemoves_ok env hrem]
    simp only [hs, if_false]
    rfl

theorem extFlush_state_ops (env : FlushEnv) (p : PState) :
    (extFlush env p).2.2.ops = [] := by
  unfold extFlush
  by_cases h0 : p.ops.isEmpty = true
  · rw [if_pos h0]
  · rw [if_neg h0]
    by_cases hs : ((dedupLast p.ops).filterMap (fun o => o.set)).isEmpty = true
    · rw [if_pos hs]
    · rw [if_neg hs]
      cases env.setBatch ((dedupLast p.ops).filterMap (fun o => o.set)) <;> rfl

theorem extFlush_empty (env : FlushEnv) (p : PState) (h : p.ops = []) :
    (extFlush env p).1 = .ok () ∧ (extFlush env p).2.1 = [] := by
  unfold extFlush
  rw [if_pos (by simp [h])]
  exact ⟨rfl, rfl⟩

theorem applyMuts_ops_proj (muts : List ExtMut) :
    ∀ p : PState, (applyMuts p muts).ops.map (fun o => (o.beanID, o.set.isSome))
      = p.ops.map (fun o => (o.beanID, o.set.isSome))
        ++ muts.map (fun mu => (mu.bid, mu.isSet)) := by
  induction muts with
  | nil => intro p; simp [applyMuts]
  | cons mu rest ih =>
    intro p
    have hstep : applyMuts p (mu :: rest) = applyMuts (applyMut p mu) rest := rfl
    rw [hstep, ih (applyMut p mu)]
    cases mu <;>
      simp [applyMut, extSetTaskID, extSetSyncedAt, extClear, appendSetOp,
        ExtMut.bid, ExtMut.isSet]

theorem applyMuts_set_bid (muts : List ExtMut) :
    ∀ p : PState, (∀ op ∈ p.ops, ∀ d, op.set = some d → d.beanID = op.beanID) →
      ∀ op ∈ (applyMuts p muts).ops, ∀ d, op.set = some d → d.beanID = op.beanID := by
  induction muts with
  | nil => intro p hp; exact hp
  | cons mu rest ih =>
    intro p hp
    have hstep : applyMuts p (mu :: rest) = applyMuts (applyMut p mu) rest := rfl
    rw [hstep]
    refine ih (applyMut p mu) ?_
    intro op hop d hd
    cases mu with
    | setTaskID bid tid =>
      simp only [applyMut, extSetTaskID, appendSetOp, List.mem_append,
        List.mem_singleton] at hop
      rcases hop with hop | hop
      · exact hp op hop d hd
      · subst hop
        simp only [Option.some.injEq] at hd
        subst hd
        rfl
    | setSyncedAt bid t =>
      simp only [applyMut, extSetSyncedAt, appendSetOp, List.mem_append,
        List.mem_singleton] at hop
      rcases hop with hop | hop
      · exact hp op hop d hd
      · subst hop
        simp only [Option.some.injEq] at hd
        subst hd
        rfl
    | clear bid =>
      simp only [applyMut, extClear, List.mem_append, List.mem_singleton] at hop
      rcases hop with hop | hop
      · exact hp op hop d hd
      · subst hop
        simp at hd

theorem filter_isBatch_removes (ids : List String) :
    (ids.map FlushCall.remove).filter isBatchCall = [] := by
  induction ids <;> simp [isBatchCall, *]

theorem filterMap_removeBid (ids : List String) :
    (ids.map FlushCall.remove).filterMap removeBidOf = ids := by
  induction ids <;> simp [removeBidOf, *]

theorem flushRemoveIDs_nodup (ops : List PendingOp) : (flushRemoveIDs ops).Nodup := by
  unfold flushRemoveIDs
  exact (dedupLast_keys_nodup ops).sublist ((List.filter_sublist _).map _)

theorem mem_flushSetOps_iff (st : PState)
    (hinv : ∀ op ∈ st.ops, ∀ d, op.set = some d → d.beanID = op.beanID) (bid : String) :
    bid ∈ (flushSetOps st.ops).map (fun d => d.beanID) ↔ finalSetFor st.ops bid = true := by
  unfold flushSetOps finalSetFor
  constructor
  · intro h
    simp only [List.mem_map, List.mem_filterMap] at h
    obtain ⟨d, ⟨op, hop, hset⟩, hbid⟩ := h
    have hbid2 : d.beanID = op.beanID := hinv op (dedupLast_subset _ _ hop) d hset
    have hl := (mem_dedupLast_iff st.ops op).mp hop
    rw [← hbid, hbid2, hl]
    dsimp only
    rw [hset]
    rfl
  · intro h
    cases hl : lastFor st.ops bid with
    | none => rw [hl] at h; simp at h
    | some op =>
      rw [hl] at h
      dsimp only at h
      obtain ⟨d, hset⟩ := Option.isSome_iff_exists.mp h
      have hbeq := (lastFor_mem st.ops bid op hl).2
      have hbid : op.beanID = bid := eq_of_beq hbeq
      have hop : op ∈ dedupLast st.ops := by
        rw [mem_dedupLast_iff, hbid]
        exact hl
      simp only [List.mem_map, List.mem_filterMap]
      exact ⟨d, ⟨op, hop, hset⟩,
        by rw [hinv op (dedupLast_subset _ _ hop) d hset, hbid]⟩

theorem mem_flushRemoveIDs_iff (st : PState) (bid : String) :
    bid ∈ flushRemoveIDs st.ops ↔ finalRemoveFor st.ops bid = true := by
  unfold flushRemoveIDs finalRemoveFor
  constructor
  · intro h
    simp only [List.mem_map, List.mem_filter] at h
    obtain ⟨op, ⟨hop, hnone⟩, hbid⟩ := h
    have hl := (mem_dedupLast_iff st.ops op).mp hop
    rw [← hbid, hl]
    exact hnone
  · intro h
    cases hl : lastFor st.ops bid with
    | none => rw [hl] at h; simp at h
    | some op =>
      rw [hl] at h
      dsimp only at h
      have hbeq := (lastFor_mem st.ops bid op hl).2
      have hbid : op.beanID = bid := eq_of_beq hbeq
      have hop : op ∈ dedupLast st.ops := by
        rw [mem_dedupLast_iff, hbid]
        exact hl
      exact List.mem_map.mpr ⟨op, List.mem_filter.mpr ⟨hop, h⟩, hbid⟩

theorem extFlush_spec (env : FlushEnv) (st : PState)
    (hinv : ∀ op ∈ st.ops, ∀ d, op.set = some d → d.beanID = op.beanID)
    (hbatch : ∀ l, env.setBatch l = .ok ()) (hrem : ∀ s, env.removeOne s = .ok ()) :
    ((extFlush env st).2.1.filter isBatchCall).length ≤ 1 ∧
    (∀ bid, (∃ l, FlushCall.batch l ∈ (extFlush env st).2.1
        ∧ bid ∈ l.map (fun d => d.beanID)) ↔ finalSetFor st.ops bid = true) ∧
    (∀ bid, FlushCall.remove bid ∈ (extFlush env st).2.1
        ↔ finalRemoveFor st.ops bid = true) ∧
    ((extFlush env st).2.1.filterMap removeBidOf).Nodup ∧
    (extFlush env st).2.2.ops = [] := by
  by_cases hne : st.ops = []
  · obtain ⟨-, h2⟩ := extFlush_empty env st hne
    rw [h2]
    have hl : ∀ bid, lastFor st.ops bid = none := by
      intro bid
      rw [hne]
      rfl
    refine ⟨by simp, ?_, ?_, by simp, extFlush_state_ops env st⟩
    · intro bid
      simp [finalSetFor, hl bid]
    · intro bid
      simp [finalRemoveFor, hl bid]
  · rw [extFlush_ok env st hbatch hrem hne]
    refine ⟨?_, ?_, ?_, ?_, by simp⟩
    · rw [List.filter_append, filter_isBatch_removes, List.append_nil]
      by_cases hs : (flushSetOps st.ops).isEmpty = true
      · rw [if_pos hs]; simp
      · rw [if_neg hs]; simp [isBatchCall]
    · intro bid
      rw [← mem_flushSetOps_iff st hinv bid]
      constructor
      · intro ⟨l, hmem, hl⟩
        simp only [List.mem_append] at hmem
        rcases hmem with hmem | hmem
        · by_cases hs : (flushSetOps st.ops).isEmpty = true
          · rw [if_pos hs] at hmem; simp at hmem
          · rw [if_neg hs] at hmem
            simp only [List.mem_singleton, FlushCall.batch.injEq] at hmem
            rw [← hmem]
            exact hl
        · simp only [List.mem_map] at hmem
          obtain ⟨x, -, hx⟩ := hmem
          exact absurd hx (by simp)
      · intro h
        refine ⟨flushSetOps st.ops, ?_, h⟩
        have hs : (flushSetOps st.ops).isEmpty = false := by
          rcases List.mem_map.mp h with ⟨d, hd, -⟩
          cases hfs : flushSetOps st.ops with
          | nil => rw [hfs] at hd; simp at hd
          | cons a as => simp
        rw [hs]
        simp
    · intro bid
      rw [← mem_flushRemoveIDs_iff st bid]
      simp only [List.mem_append]
      constructor
      · intro h
        rcases h with h | h
        · by_cases hs : (flushSetOps st.ops).isEmpty = true
          · rw [if_pos hs] at h; simp at h
          · rw [if_neg hs] at h
            simp at h
        · simp only [List.mem_map] at h
          obtain ⟨x, hx, hxe⟩ := h
          have hxeq : x = bid := by injection hxe
          rwa [hxeq] at hx
      · intro h
        right
        exact List.mem_map.mpr ⟨bid, h, rfl⟩
    · rw [List.filterMap_append, filterMap_removeBid]
      have hbatchnone : ((if (flushSetOps st.ops).isEmpty then []
          else [FlushCall.batch (flushSetOps st.ops)]).filterMap removeBidOf) = [] := by
        by_cases hs : (flushSetOps st.ops).isEmpty = true
        · rw [if_pos hs]; rfl
        · rw [if_neg hs]; rfl
      rw [hbatchnone, List.nil_append]
      exact flushRemoveIDs_nodup st.ops

/-- C8: for every sequence of SetTaskID/SetSyncedAt/Clear mutations on the
deferred-batched provider (starting from a freshly constructed state), Flush
keeps only the last pending operation per bean id, issues at most one batched
set call covering exactly the beans whose final operation is a set plus
exactly one remove call per bean whose final operation is a removal, and
empties the pending list, so an immediate second Flush makes no remote calls
and returns no error. -/
theorem C8_flush_last_write_wins (env : FlushEnv) (p0 : PState) (muts : List ExtMut)
    (hops0 : p0.ops = [])
    (hbatch : ∀ l, env.setBatch l = .ok ())
    (hrem : ∀ s, env.removeOne s = .ok ()) :
    (((dedupLast (applyMuts p0 muts).ops).map (fun o => o.beanID)).Nodup) ∧
    (∀ op, op ∈ dedupLast (applyMuts p0 muts).ops ↔
      lastFor (applyMuts p0 muts).ops op.beanID = some op) ∧
    ((applyMuts p0 muts).ops.map (fun o => (o.beanID, o.set.isSome))
      = muts.map (fun mu => (mu.bid, mu.isSet))) ∧
    (((extFlush env (applyMuts p0 muts)).2.1.filter isBatchCall).length ≤ 1) ∧
    (∀ bid, (∃ l, FlushCall.batch l ∈ (extFlush env (applyMuts p0 muts)).2.1
        ∧ bid ∈ l.map (fun d => d.beanID))
      ↔ finalSetFor (applyMuts p0 muts).ops bid = true) ∧
    (∀ bid, FlushCall.remove bid ∈ (extFlush env (applyMuts p0 muts)).2.1
      ↔ finalRemoveFor (applyMuts p0 muts).ops bid = true) ∧
    (((extFlush env (applyMuts p0 muts)).2.1.filterMap removeBidOf).Nodup) ∧
    ((extFlush env (applyMuts p0 muts)).2.2.ops = []) ∧
    ((extFlush env (extFlush env (applyMuts p0 muts)).2.2).1 = .ok ()) ∧
    ((extFlush env (extFlush env (applyMuts p0 muts)).2.2).2.1 = []) := by
  have hinv := applyMuts_set_bid muts p0 (by rw [hops0]; simp)
  have hspec := extFlush_spec env (applyMuts p0 muts) hinv hbatch hrem
  have hproj := applyMuts_ops_proj muts p0
  rw [hops0] at hproj
  simp only [List.map_nil, List.nil_append] at hproj
  exact ⟨dedupLast_keys_nodup _, fun op => mem_dedupLast_iff _ op, hproj,
    hspec.1, hspec.2.1, hspec.2.2.1, hspec.2.2.2.1, hspec.2.2.2.2,
    (extFlush_empty env _ hspec.2.2.2.2).1, (extFlush_empty env _ hspec.2.2.2.2).2⟩

/-- A flush oracle where every call succeeds. -/
def fixFlushEnv : FlushEnv :=
  { setBatch := fun _ => .ok (), removeOne := fun _ => .ok () }

/-- A freshly constructed provider state. -/
def fixP0 : PState := { cache := fun _ => none, ops := [] }

/-- A mutation sequence with overwrites and removals. -/
def fixMuts : List ExtMut :=
  [.setTaskID "a" "t1", .setSyncedAt "a" 5, .clear "b", .setTaskID "b" "t2", .clear "c"]

/-- Witness for C8: after sets and clears on beans a, b, c (a set twice, b
cleared then set, c cleared), Flush batches a and b, removes c, and a second
Flush is a no-op. -/
theorem C8_flush_last_write_wins_witness :
    fixP0.ops = [] ∧
    finalSetFor (applyMuts fixP0 fixMuts).ops "a" = true ∧
    finalSetFor (applyMuts fixP0 fixMuts).ops "b" = true ∧
    finalRemoveFor (applyMuts fixP0 fixMuts).ops "c" = true ∧
    (∃ l, FlushCall.batch l ∈ (extFlush fixFlushEnv (applyMuts fixP0 fixMuts)).2.1
      ∧ "a" ∈ l.map (fun d => d.beanID)) ∧
    (FlushCall.remove "c" ∈ (extFlush fixFlushEnv (applyMuts fixP0 fixMuts)).2.1) ∧
    (extFlush fixFlushEnv (applyMuts fixP0 fixMuts)).2.2.ops = [] ∧
    (extFlush fixFlushEnv (extFlush fixFlushEnv (applyMuts fixP0 fixMuts)).2.2).2.1
      = [] := by
  have h := C8_flush_last_write_wins fixFlushEnv fixP0 fixMuts rfl
    (fun _ => rfl) (fun _ => rfl)
  refine ⟨rfl, by decide, by decide, by decide, ?_, ?_, ?_, ?_⟩
  · exact (h.2.2.2.2.1 "a").mpr (by decide)
  · exact (h.2.2.2.2.2.1 "c").mpr (by decide)
  · exact h.2.2.2.2.2.2.2.1
  · exact h.2.2.2.2.2.2.2.2.2
/-! ## C9 -/

theorem createFlow_dryRun_events (c : SyncCtx) (st : Store) (m : BeanMap) (b : Bean)
    (result0 : SyncResult) (description clickUpStatus : String) (priority : Option Int)
    (events0 : List Event) (hdry : c.opts.dryRun = true) :
    (createFlow c st m b result0 description clickUpStatus priority events0).events
      = events0 := by
  unfold createFlow
  rw [if_pos hdry]

/-- In a dry run, `syncBean` emits only `getTask` reads and (when the linked
task is gone remotely) `clear` store ops. -/
theorem syncBean_dryRun_events (c : SyncCtx) (st : Store) (m : BeanMap) (b : Bean)
    (hdry : c.opts.dryRun = true) :
    ∀ ev ∈ (syncBean c st m b).events,
      isRemoteWrite ev = false ∧
        ∀ op, ev = Event.store op → ∃ bid, op = StoreOp.clear bid := by
  intro ev hev
  unfold syncBean at hev
  cases hid : storeGetTaskID st b.id with
  | none =>
    rw [hid] at hev
    dsimp only at hev
    rw [createFlow_dryRun_events c st m b _ _ _ _ _ hdry] at hev
    simp at hev
  | some tid =>
    rw [hid] at hev
    dsimp only at hev
    by_cases hskip : ¬ c.opts.force = true ∧ ¬ needsSync st b = true
    · rw [if_pos hskip] at hev
      simp at hev
    · rw [if_neg hskip] at hev
      cases hg : c.env.getTask tid with
      | error e =>
        rw [hg] at hev
        dsimp only at hev
        by_cases hnf : (goContains e "Task not found" || goContains e "ITEM_013") = true
        · rw [if_pos hnf] at hev
          rw [createFlow_dryRun_events c _ m b _ _ _ _ _ hdry] at hev
          simp only [List.mem_cons, List.not_mem_nil, or_false] at hev
          rcases hev with hev | hev
          · subst hev
            exact ⟨rfl, fun op hop => by cases hop⟩
          · subst hev
            refine ⟨rfl, fun op hop => ?_⟩
            injection hop with h
            exact ⟨b.id, h.symm⟩
        · rw [if_neg hnf] at hev
          simp only [List.mem_singleton] at hev
          subst hev
          exact ⟨rfl, fun op hop => by cases hop⟩
      | ok task =>
        rw [hg] at hev
        dsimp only at hev
        rw [if_pos hdry] at hev
        simp only [List.mem_singleton] at hev
        subst hev
        exact ⟨rfl, fun op hop => by cases hop⟩

theorem runPass_outs_pred (c : SyncCtx) (P : Event → Prop)
    (hP : ∀ st m b, ∀ ev ∈ (syncBean c st m b).events, P ev) :
    ∀ (bs : List Bean) (rs : RunState),
      (∀ o ∈ rs.outs, ∀ ev ∈ o.2.2, P ev) →
      ∀ o ∈ (runPass c rs bs).outs, ∀ ev ∈ o.2.2, P ev := by
  intro bs
  induction bs with
  | nil => intro rs h; exact h
  | cons b rest ih =>
    intro rs h
    have hstep : runPass c rs (b :: rest) = runPass c (processBean c rs b) rest := rfl
    rw [hstep]
    refine ih (processBean c rs b) ?_
    intro o ho ev hev
    simp only [processBean, List.mem_append, List.mem_singleton] at ho
    rcases ho with ho | ho
    · exact h o ho ev hev
    · subst ho
      exact hP rs.store rs.map b ev hev

theorem mem_outs_events (l : List (String × SyncResult × List Event)) (ev : Event) :
    ev ∈ l.foldr (fun o acc => o.2.2 ++ acc) [] ↔ ∃ o ∈ l, ev ∈ o.2.2 := by
  induction l with
  | nil => simp
  | cons o rest ih => simp [List.mem_append, ih]

theorem mem_allEvents (ro : RunOut) (ev : Event) :
    ev ∈ allEvents ro ↔ (∃ o ∈ ro.results, ev ∈ o.2.2) ∨ ev ∈ ro.relEvents := by
  unfold allEvents
  rw [List.mem_append, mem_outs_events]

theorem syncRun_relEvents_dry (c : SyncCtx) (st0 : Store) (beanList ord1 ord2 : List Bean)
    (hdry : c.opts.dryRun = true) :
    (syncRun c st0 beanList ord1 ord2).relEvents = [] := by
  simp only [syncRun]
  rw [if_neg (by simp [hdry])]

/-- C9 (amended): in preview mode a sync run issues no remote write of any
kind, and its only Sync State Store mutations are `clear`s (unlinking beans
whose linked task no longer exists remotely); a linked bean whose fetch
succeeds and that is not skipped reports "would update", and an unlinked
bean reports "would create". -/
theorem C9_preview_no_writes_amended (c : SyncCtx) (st0 : Store)
    (beanList ord1 ord2 : List Bean)
    (hdry : c.opts.dryRun = true) :
    (∀ ev ∈ allEvents (syncRun c st0 beanList ord1 ord2),
      isRemoteWrite ev = false ∧
        ∀ op, ev = Event.store op → ∃ bid, op = StoreOp.clear bid) ∧
    (∀ (st : Store) (m : BeanMap) (b : Bean) (tid : String) (task : TaskInfo),
      storeGetTaskID st b.id = some tid →
      c.env.getTask tid = .ok task →
      (c.opts.force = true ∨ needsSync st b = true) →
      (syncBean c st m b).result.action = "would update") ∧
    (∀ (st : Store) (m : BeanMap) (b : Bean),
      storeGetTaskID st b.id = none →
      (syncBean c st m b).result.action = "would create") := by
  refine ⟨?_, ?_, ?_⟩
  · intro ev hev
    rw [mem_allEvents] at hev
    have hP : ∀ st m b, ∀ ev' ∈ (syncBean c st m b).events,
        isRemoteWrite ev' = false ∧
          ∀ op, ev' = Event.store op → ∃ bid, op = StoreOp.clear bid :=
      fun st m b => syncBean_dryRun_events c st m b hdry
    rcases hev with ⟨o, ho, hev⟩ | hev
    · have h0 : ∀ o ∈ ([] : List (String × SyncResult × List Event)), ∀ ev' ∈ o.2.2,
          isRemoteWrite ev' = false ∧
            ∀ op, ev' = Event.store op → ∃ bid, op = StoreOp.clear bid := by
        intro o ho
        simp at ho
      have h1 := runPass_outs_pred c _ hP ord1
        { store := st0, map := preloadMap st0 beanList, outs := [] } h0
      have h2 := runPass_outs_pred c _ hP ord2 _ h1
      exact h2 o ho ev hev
    · rw [syncRun_relEvents_dry c st0 beanList ord1 ord2 hdry] at hev
      simp at hev
  · intro st m b tid task hlink hok hforce
    unfold syncBean
    rw [hlink]
    dsimp only
    rw [if_neg (fun hcon => hforce.elim (fun hf => hcon.1 hf) (fun hf => hcon.2 hf))]
    rw [hok]
    dsimp only
    rw [if_pos hdry]
  · intro st m b hlink
    unfold syncBean
    rw [hlink]
    dsimp only
    unfold createFlow
    rw [if_pos hdry]

/-- A dry-run context whose task fetch always reports the task deleted. -/
def fixCtxNFDry : SyncCtx :=
  { fixCtxNF with opts := { fixCtxNF.opts with dryRun := true } }

/-- Counterexample to C9 as stated: in preview mode, a linked bean whose
remote task was deleted gets its Sync State Store link cleared (a store
write) and reports "would create", not "would update". -/
theorem C9_preview_counterexample :
    (storeGetTaskID fixStore fixBean.id).isSome = true ∧
    fixCtxNFDry.opts.dryRun = true ∧
    Event.store (StoreOp.clear fixBean.id)
      ∈ (syncBean fixCtxNFDry fixStore emptyBeanMap fixBean).events ∧
    (syncBean fixCtxNFDry fixStore emptyBeanMap fixBean).store fixBean.id
      ≠ fixStore fixBean.id ∧
    (syncBean fixCtxNFDry fixStore emptyBeanMap fixBean).result.action ≠ "would update" := by
  refine ⟨rfl, rfl, ?_, ?_, ?_⟩ <;> decide

/-- Witness for the amended C9 on a concrete dry run. -/
theorem C9_preview_no_writes_amended_witness :
    fixCtxNFDry.opts.dryRun = true ∧
    (∀ ev ∈ allEvents (syncRun fixCtxNFDry fixStore [fixBean] [fixBean] []),
      isRemoteWrite ev = false ∧
        ∀ op, ev = Event.store op → ∃ bid, op = StoreOp.clear bid) ∧
    (syncBean fixCtxNFDry (fun _ => none) emptyBeanMap fixBeanNoUpd).result.action
      = "would create" := by
  have h := C9_preview_no_writes_amended fixCtxNFDry fixStore [fixBean] [fixBean] [] rfl
  refine ⟨rfl, h.1, ?_⟩
  exact h.2.2 (fun _ => none) emptyBeanMap fixBeanNoUpd rfl

/-! ## C5 -/

/-- A root bean. -/
def beanA5 : Bean :=
  { fixBean with id := "A", title := "A", updatedAt := none, tags := [] }

/-- A bean whose parent is `beanA5`. -/
def beanB5 : Bean :=
  { fixBean with id := "B", title := "B", parent := "A", updatedAt := none, tags := [] }

/-- A bean whose parent is `beanB5` (a three-level chain). -/
def beanC5 : Bean :=
  { fixBean with id := "C", title := "C", parent := "B", updatedAt := none, tags := [] }

/-- A store with no links at all. -/
def emptyStore : Store := fun _ => none

/-- A fresh run over the chain, with the middle bean listed last. -/
def run5 : RunOut := SyncBeans fixCtx emptyStore [beanA5, beanC5, beanB5]

/-- The `parent` fields of the create requests in an event trace, in order. -/
def createParents (evs : List Event) : List (Option String) :=
  evs.filterMap fun ev =>
    match ev with
    | Event.call (RemoteCall.createTask _ req) => some req.parent
    | _ => none

set_option maxRecDepth 100000 in
/-- Counterexample to C5 as stated: on the three-level chain A <- B <- C with
input order [A, C, B], bean C is processed in Pass 2 before its parent B, so
C's create request carries no parent task id although B is present in the
same run (and is itself created with a non-empty task id). -/
theorem C5_layering_counterexample :
    beanC5.parent = beanB5.id ∧
    beanB5 ∈ [beanA5, beanC5, beanB5] ∧
    (([beanA5, beanC5, beanB5].map Bean.id).Nodup ∧ fixCtx.opts.dryRun = false) ∧
    (∃ o ∈ run5.results, o.1 = beanB5.id ∧ o.2.1.action = "created" ∧ o.2.1.taskID ≠ "") ∧
    (∃ o ∈ run5.results, o.1 = beanC5.id ∧ o.2.1.action = "created" ∧
      createParents o.2.2 = [none]) := by
  refine ⟨rfl, by decide, by decide, ?_, ?_⟩ <;> decide

theorem storeSetTaskID_frame (st : Store) (bid tid k : String) (hk : k ≠ bid) :
    storeSetTaskID st bid tid k = st k := by
  unfold storeSetTaskID
  rw [if_neg hk]

theorem storeSetSyncedAt_frame (st : Store) (bid : String) (t : Int) (k : String)
    (hk : k ≠ bid) :
    storeSetSyncedAt st bid t k = st k := by
  unfold storeSetSyncedAt
  rw [if_neg hk]

theorem storeClear_frame (st : Store) (bid k : String) (hk : k ≠ bid) :
    storeClear st bid k = st k := by
  unfold storeClear
  rw [if_neg hk]

theorem syncBean_store_frame (c : SyncCtx) (st : Store) (m : BeanMap) (b : Bean)
    (k : String) (hk : k ≠ b.id) :
    (syncBean c st m b).store k = st k := by
  unfold syncBean createFlow
  dsimp only
  repeat' split
  all_goals
    simp [storeSetSyncedAt, storeSetTaskID, storeClear, hk]

theorem syncBean_map_frame (c : SyncCtx) (st : Store) (m : BeanMap) (b : Bean)
    (k : String) (hk : k ≠ b.id) :
    (syncBean c st m b).map k = m k := by
  unfold syncBean createFlow
  dsimp only
  repeat' split
  all_goals
    simp [mapInsert, hk]

theorem processBean_store_frame (c : SyncCtx) (rs : RunState) (b : Bean)
    (k : String) (hk : k ≠ b.id) :
    (processBean c rs b).store k = rs.store k :=
  syncBean_store_frame c rs.store rs.map b k hk

theorem processBean_map_frame (c : SyncCtx) (rs : RunState) (b : Bean)
    (k : String) (hk : k ≠ b.id) :
    (processBean c rs b).map k = rs.map k := by
  have h := syncBean_map_frame c rs.store rs.map b k hk
  simp only [processBean]
  split <;> simp [mapInsert, hk, h]

theorem processBean_outs (c : SyncCtx) (rs : RunState) (b : Bean) :
    (processBean c rs b).outs
      = rs.outs ++ [(b.id, (syncBean c rs.store rs.map b).result,
          (syncBean c rs.store rs.map b).events)] := rfl

theorem runPass_cons (c : SyncCtx) (rs : RunState) (b : Bean) (bs : List Bean) :
    runPass c rs (b :: bs) = runPass c (processBean c rs b) bs := rfl

theorem runPass_append (c : SyncCtx) (rs : RunState) (l1 l2 : List Bean) :
    runPass c rs (l1 ++ l2) = runPass c (runPass c rs l1) l2 := by
  simp only [runPass, List.foldl_append]

theorem runPass_outs_mono (c : SyncCtx) (bs : List Bean) :
    ∀ (rs : RunState), ∀ o ∈ rs.outs, o ∈ (runPass c rs bs).outs := by
  induction bs with
  | nil => intro rs o ho; exact ho
  | cons b rest ih =>
    intro rs o ho
    rw [runPass_cons]
    refine ih (processBean c rs b) o ?_
    rw [processBean_outs]
    exact List.mem_append_left _ ho

theorem runPass_store_frame (c : SyncCtx) (bs : List Bean) :
    ∀ (rs : RunState) (k : String), (∀ b' ∈ bs, k ≠ b'.id) →
      (runPass c rs bs).store k = rs.store k := by
  induction bs with
  | nil => intro rs k h; rfl
  | cons b rest ih =>
    intro rs k h
    rw [runPass_cons]
    rw [ih (processBean c rs b) k (fun b' hb' => h b' (List.mem_cons_of_mem _ hb'))]
    exact processBean_store_frame c rs b k (h b (List.mem_cons_self _ _))

theorem runPass_map_frame (c : SyncCtx) (bs : List Bean) :
    ∀ (rs : RunState) (k : String), (∀ b' ∈ bs, k ≠ b'.id) →
      (runPass c rs bs).map k = rs.map k := by
  induction bs with
  | nil => intro rs k h; rfl
  | cons b rest ih =>
    intro rs k h
    rw [runPass_cons]
    rw [ih (processBean c rs b) k (fun b' hb' => h b' (List.mem_cons_of_mem _ hb'))]
    exact processBean_map_frame c rs b k (h b (List.mem_cons_self _ _))

theorem buildCreateRequest_parent (c : SyncCtx) (m : BeanMap) (b : Bean)
    (description clickUpStatus : String) (priority : Option Int) (tid : String)
    (hbp : b.parent ≠ "") (hm : m b.parent = some tid) :
    (buildCreateRequest c m b description clickUpStatus priority).parent = some tid := by
  unfold buildCreateRequest
  dsimp only
  rw [if_pos hbp, hm]

theorem syncBean_fresh_created (c : SyncCtx) (st : Store) (m : BeanMap) (b : Bean)
    (t : TaskInfo)
    (hlink : storeGetTaskID st b.id = none)
    (hdry : c.opts.dryRun = false)
    (hcreate : c.env.createTask c.opts.listID
        (buildCreateRequest c m b (buildTaskDescription b) (getClickUpStatus c.cfg b.status)
          (getClickUpPriority c.cfg b.priority)) = .ok t) :
    (syncBean c st m b).result.action = "created" ∧
    (syncBean c st m b).result.taskID = t.id ∧
    Event.call (RemoteCall.createTask c.opts.listID
        (buildCreateRequest c m b (buildTaskDescription b) (getClickUpStatus c.cfg b.status)
          (getClickUpPriority c.cfg b.priority))) ∈ (syncBean c st m b).events ∧
    (syncBean c st m b).map b.id = some t.id := by
  unfold syncBean
  rw [hlink]
  dsimp only
  unfold createFlow
  dsimp only
  rw [hdry]
  simp only [Bool.false_eq_true, if_false]
  rw [hcreate]
  dsimp only
  refine ⟨rfl, rfl, ?_, ?_⟩
  · simp
  · simp [mapInsert]

theorem processBean_created (c : SyncCtx) (rs : RunState) (b : Bean) (t : TaskInfo)
    (hlink : storeGetTaskID rs.store b.id = none)
    (hdry : c.opts.dryRun = false)
    (hcreate : c.env.createTask c.opts.listID
        (buildCreateRequest c rs.map b (buildTaskDescription b)
          (getClickUpStatus c.cfg b.status)
          (getClickUpPriority c.cfg b.priority)) = .ok t) :
    (processBean c rs b).map b.id = some t.id ∧
    ∃ res evs, (b.id, res, evs) ∈ (processBean c rs b).outs ∧
      res.action = "created" ∧ res.taskID = t.id ∧
      Event.call (RemoteCall.createTask c.opts.listID
          (buildCreateRequest c rs.map b (buildTaskDescription b)
            (getClickUpStatus c.cfg b.status)
            (getClickUpPriority c.cfg b.priority))) ∈ evs := by
  obtain ⟨hact, htid, hev, hmap⟩ :=
    syncBean_fresh_created c rs.store rs.map b t hlink hdry hcreate
  constructor
  · simp only [processBean]
    split <;> simp [mapInsert, htid, hmap]
  · refine ⟨(syncBean c rs.store rs.map b).result, (syncBean c rs.store rs.map b).events,
      ?_, hact, htid, hev⟩
    rw [processBean_outs]
    exact List.mem_append_right _ (List.mem_singleton.mpr rfl)

theorem mem_rootsOf {l : List Bean} {b : Bean} (h : b ∈ rootsOf l) :
    b ∈ l ∧ isRoot (l.map Bean.id) b = true := by
  simpa [rootsOf] using List.mem_filter.mp h

theorem mem_childrenOf {l : List Bean} {b : Bean} (h : b ∈ childrenOf l) :
    b ∈ l ∧ isRoot (l.map Bean.id) b = false := by
  simp only [childrenOf, List.mem_filter, decide_eq_true_eq] at h
  exact ⟨h.1, by simpa using h.2⟩

theorem childrenOf_mem {l : List Bean} {b : Bean} (hb : b ∈ l)
    (hnr : isRoot (l.map Bean.id) b = false) : b ∈ childrenOf l := by
  simp only [childrenOf, List.mem_filter, decide_eq_true_eq]
  exact ⟨hb, by simp [hnr]⟩

theorem roots_children_id_ne {l : List Bean} (hnd : (l.map Bean.id).Nodup)
    {r ch : Bean} (hr : r ∈ rootsOf l) (hch : ch ∈ childrenOf l) : r.id ≠ ch.id := by
  obtain ⟨hrl, hrt⟩ := mem_rootsOf hr
  obtain ⟨hcl, hcf⟩ := mem_childrenOf hch
  intro he
  have heq : r = ch := List.inj_on_of_nodup_map hnd hrl hcl he
  rw [heq, hcf] at hrt
  cases hrt

theorem rootsOf_ids_nodup {l : List Bean} (hnd : (l.map Bean.id).Nodup) :
    ((rootsOf l).map Bean.id).Nodup :=
  hnd.sublist ((List.filter_sublist l).map Bean.id)

theorem childrenOf_ids_nodup {l : List Bean} (hnd : (l.map Bean.id).Nodup) :
    ((childrenOf l).map Bean.id).Nodup :=
  hnd.sublist ((List.filter_sublist l).map Bean.id)

/-- C5 (amended): the layering invariant holds one level deep.  In a fresh
run (empty store, real mode, creations succeeding with non-empty task ids),
a dependent bean whose parent is a Pass-1 root observes the parent's
resolved task id in its create request, for arbitrary serialization orders
of the two passes.  (For parents that are themselves dependents the
guarantee fails; see the counterexample.) -/
theorem C5_layering_amended (c : SyncCtx) (st0 : Store) (beanList ord1 ord2 : List Bean)
    (p child : Bean)
    (hnodup : (beanList.map Bean.id).Nodup)
    (hord1 : ord1.Perm (rootsOf beanList))
    (hord2 : ord2.Perm (childrenOf beanList))
    (hst0 : ∀ k, st0 k = none)
    (hdry : c.opts.dryRun = false)
    (hcreate : ∀ lid req, ∃ t, c.env.createTask lid req = .ok t ∧ t.id ≠ "")
    (hp : p ∈ rootsOf beanList)
    (hchild : child ∈ beanList)
    (hchildnr : isRoot (beanList.map Bean.id) child = false)
    (hparent : child.parent = p.id)
    (hpne : child.parent ≠ "") :
    ∃ tid, tid ≠ "" ∧
      (∃ o ∈ (syncRun c st0 beanList ord1 ord2).results,
        o.1 = p.id ∧ o.2.1.action = "created" ∧ o.2.1.taskID = tid) ∧
      (∃ o ∈ (syncRun c st0 beanList ord1 ord2).results,
        o.1 = child.id ∧ o.2.1.action = "created" ∧
        ∃ req, Event.call (RemoteCall.createTask c.opts.listID req) ∈ o.2.2 ∧
          req.parent = some tid) := by
  have hp1 : p ∈ ord1 := hord1.mem_iff.mpr hp
  have hchmem : child ∈ childrenOf beanList := childrenOf_mem hchild hchildnr
  have hch2 : child ∈ ord2 := hord2.mem_iff.mpr hchmem
  have hnd1 : (ord1.map Bean.id).Nodup :=
    ((hord1.map Bean.id).nodup_iff).mpr (rootsOf_ids_nodup hnodup)
  have hnd2 : (ord2.map Bean.id).Nodup :=
    ((hord2.map Bean.id).nodup_iff).mpr (childrenOf_ids_nodup hnodup)
  have hp2ne : ∀ b' ∈ ord2, p.id ≠ b'.id := fun b' hb' =>
    roots_children_id_ne hnodup hp (hord2.subset hb')
  have hch1ne : ∀ b' ∈ ord1, child.id ≠ b'.id := fun b' hb' =>
    (roots_children_id_ne hnodup (hord1.subset hb') hchmem).symm
  obtain ⟨l1, l2, hsplit1⟩ := List.append_of_mem hp1
  have hnd1' := hnd1
  rw [hsplit1, List.map_append, List.map_cons, List.nodup_append] at hnd1'
  obtain ⟨hndl1, hndcons, hdisj1⟩ := hnd1'
  rw [List.nodup_cons] at hndcons
  have hpl1 : ∀ b' ∈ l1, p.id ≠ b'.id := fun b' hb' he =>
    hdisj1 (by rw [he]; exact List.mem_map_of_mem Bean.id hb') (List.mem_cons_self _ _)
  have hpl2 : ∀ b' ∈ l2, p.id ≠ b'.id := fun b' hb' he =>
    hndcons.1 (by rw [he]; exact List.mem_map_of_mem Bean.id hb')
  -- the store never holds a link for p before p is processed
  have hlinkp : storeGetTaskID
      (runPass c { store := st0, map := preloadMap st0 beanList, outs := [] } l1).store
        p.id = none := by
    unfold storeGetTaskID
    rw [runPass_store_frame c l1 _ p.id hpl1]
    dsimp only
    rw [hst0]
  obtain ⟨tP, hokP, htPne⟩ := hcreate c.opts.listID
    (buildCreateRequest c
      (runPass c { store := st0, map := preloadMap st0 beanList, outs := [] } l1).map p
      (buildTaskDescription p) (getClickUpStatus c.cfg p.status)
      (getClickUpPriority c.cfg p.priority))
  obtain ⟨hmapP, resP, evsP, hmemP, hactP, htidP, hevP⟩ :=
    processBean_created c
      (runPass c { store := st0, map := preloadMap st0 beanList, outs := [] } l1)
      p tP hlinkp hdry hokP
  have hpass1 : runPass c { store := st0, map := preloadMap st0 beanList, outs := [] } ord1
      = runPass c
          (processBean c
            (runPass c { store := st0, map := preloadMap st0 beanList, outs := [] } l1) p)
          l2 := by
    rw [hsplit1, runPass_append, runPass_cons]
  have hmap1 : (runPass c { store := st0, map := preloadMap st0 beanList, outs := [] }
      ord1).map p.id = some tP.id := by
    rw [hpass1, runPass_map_frame c l2 _ p.id hpl2, hmapP]
  have hmemP2 : (p.id, resP, evsP)
      ∈ (runPass c { store := st0, map := preloadMap st0 beanList, outs := [] }
          ord1).outs := by
    rw [hpass1]
    exact runPass_outs_mono c l2 _ _ hmemP
  -- pass 2
  obtain ⟨k1, k2, hsplit2⟩ := List.append_of_mem hch2
  have hnd2' := hnd2
  rw [hsplit2, List.map_append, List.map_cons, List.nodup_append] at hnd2'
  obtain ⟨hndk1, hndcons2, hdisj2⟩ := hnd2'
  have hchk1 : ∀ b' ∈ k1, child.id ≠ b'.id := fun b' hb' he =>
    hdisj2 (by rw [he]; exact List.mem_map_of_mem Bean.id hb') (List.mem_cons_self _ _)
  have hk1p : ∀ b' ∈ k1, p.id ≠ b'.id := fun b' hb' =>
    hp2ne b' (by rw [hsplit2]; exact List.mem_append_left _ hb')
  have hmap2 : (runPass c
      (runPass c { store := st0, map := preloadMap st0 beanList, outs := [] } ord1)
      k1).map p.id = some tP.id := by
    rw [runPass_map_frame c k1 _ p.id hk1p]
    exact hmap1
  have hlinkch : storeGetTaskID
      (runPass c
        (runPass c { store := st0, map := preloadMap st0 beanList, outs := [] } ord1)
        k1).store child.id = none := by
    unfold storeGetTaskID
    rw [runPass_store_frame c k1 _ child.id hchk1,
      runPass_store_frame c ord1 _ child.id hch1ne]
    dsimp only
    rw [hst0]
  obtain ⟨tC, hokC, htCne⟩ := hcreate c.opts.listID
    (buildCreateRequest c
      (runPass c
        (runPass c { store := st0, map := preloadMap st0 beanList, outs := [] } ord1)
        k1).map child
      (buildTaskDescription child) (getClickUpStatus c.cfg child.status)
      (getClickUpPriority c.cfg child.priority))
  obtain ⟨hmapC, resC, evsC, hmemC, hactC, htidC, hevC⟩ :=
    processBean_created c
      (runPass c
        (runPass c { store := st0, map := preloadMap st0 beanList, outs := [] } ord1)
        k1)
      child tC hlinkch hdry hokC
  have hpass2 : runPass c
      (runPass c { store := st0, map := preloadMap st0 beanList, outs := [] } ord1) ord2
      = runPass c
          (processBean c
            (runPass c
              (runPass c { store := st0, map := preloadMap st0 beanList, outs := [] } ord1)
              k1) child)
          k2 := by
    rw [hsplit2, runPass_append, runPass_cons]
  have hmemC2 : (child.id, resC, evsC)
      ∈ (runPass c
          (runPass c { store := st0, map := preloadMap st0 beanList, outs := [] } ord1)
          ord2).outs := by
    rw [hpass2]
    exact runPass_outs_mono c k2 _ _ hmemC
  have hmemP3 : (p.id, resP, evsP)
      ∈ (runPass c
          (runPass c { store := st0, map := preloadMap st0 beanList, outs := [] } ord1)
          ord2).outs :=
    runPass_outs_mono c ord2 _ _ hmemP2
  have hreqpar : (buildCreateRequest c
      (runPass c
        (runPass c { store := st0, map := preloadMap st0 beanList, outs := [] } ord1)
        k1).map child
      (buildTaskDescription child) (getClickUpStatus c.cfg child.status)
      (getClickUpPriority c.cfg child.priority)).parent = some tP.id :=
    buildCreateRequest_parent c _ child _ _ _ tP.id hpne (by rw [hparent]; exact hmap2)
  exact ⟨tP.id, htPne,
    ⟨(p.id, resP, evsP), hmemP3, rfl, hactP, htidP⟩,
    ⟨(child.id, resC, evsC), hmemC2, rfl, hactC, _, hevC, hreqpar⟩⟩

/-- Witness for the amended C5: a two-bean run (child listed before its
root parent) creates the parent first and the child's create request
carries the parent's task id. -/
theorem C5_layering_amended_witness :
    ∃ tid, tid ≠ "" ∧
      (∃ o ∈ (syncRun fixCtx emptyStore [beanB5, beanA5]
          (rootsOf [beanB5, beanA5]) (childrenOf [beanB5, beanA5])).results,
        o.1 = beanA5.id ∧ o.2.1.action = "created" ∧ o.2.1.taskID = tid) ∧
      (∃ o ∈ (syncRun fixCtx emptyStore [beanB5, beanA5]
          (rootsOf [beanB5, beanA5]) (childrenOf [beanB5, beanA5])).results,
        o.1 = beanB5.id ∧ o.2.1.action = "created" ∧
        ∃ req, Event.call (RemoteCall.createTask fixCtx.opts.listID req) ∈ o.2.2 ∧
          req.parent = some tid) :=
  C5_layering_amended fixCtx emptyStore [beanB5, beanA5] _ _ beanA5 beanB5
    (by decide) (List.Perm.refl _) (List.Perm.refl _) (fun _ => rfl) rfl
    (fun lid req => ⟨sampleTask ("task-" ++ req.name), rfl, by
      intro h
      have h' := congrArg String.length h
      dsimp only [sampleTask] at h'
      rw [String.length_append] at h'
      have h5 : "task-".length = 5 := rfl
      have h0 : "".length = 0 := rfl
      rw [h5, h0] at h'
      omega⟩)
    (by decide) (by decide) (by decide) rfl (by decide)

end BeanMeUp
